import Mathlib

/-!
# Pingdom check types: parameter encoding and validation

A shallow embedding of `pingdom/check_types.go`.

* Go `string` is `String`; Go string comparison (bytewise on UTF-8) agrees with
  the code-point lexicographic order of `String`.
* Go `int` is `Int`; the code does no arithmetic on these fields, so the
  statements hold for every integer, in particular for every 64-bit one.
* Go `map[string]string` is `GoMap`, an association list read by first match.
* `*bool` / `*int` are `Option Bool` / `Option Int` (`none` is the nil pointer).
* Go `error` is `Option String`: `none` is `nil`, `some msg` an error with that
  message.
-/

namespace Pingdom

/-! ## Library functions used by the source -/

/-- Decimal rendering of an integer, as `strconv.Itoa` and the `%d` verb do. -/
def Itoa : Int → String
  | Int.ofNat n => Nat.repr n
  | Int.negSucc n => "-" ++ Nat.repr (n + 1)

/-- Rendering of a boolean, as `strconv.FormatBool` does. -/
def FormatBool (b : Bool) : String :=
  if b then "true" else "false"

/-- The number that a run of decimal digit characters denotes. -/
def digitsValue (l : List Char) : Nat :=
  l.foldl (fun a c => 10 * a + (c.toNat - 48)) 0

/-- Lexicographic comparison of two character sequences by code point. -/
def lessChars : List Char → List Char → Bool
  | [], [] => false
  | [], _ :: _ => true
  | _ :: _, [] => false
  | a :: as, b :: bs =>
    if a.toNat < b.toNat then true
    else if b.toNat < a.toNat then false
    else lessChars as bs

/-- Go string comparison `a < b`. Go compares bytewise; on UTF-8 text this is the
lexicographic order by code point. -/
def stringLess (a b : String) : Bool :=
  lessChars a.data b.data

/-- Sorting of a slice of strings in increasing order, as `sort.Strings` does. -/
def sortStrings (l : List String) : List String :=
  l.insertionSort (fun a b => stringLess b a = false)

/-! ## Go maps from strings to strings -/

/-- A `map[string]string`: the entries of the map, read by first match. -/
abbrev GoMap := List (String × String)

namespace GoMap

/-- Lookup `m[k]` with presence: `none` when the key is absent. -/
def get : GoMap → String → Option String
  | [], _ => none
  | (k', v) :: m, k => if k' = k then some v else get m k

/-- The expression `m[k]`: the zero value `""` when the key is absent. -/
def index (m : GoMap) (k : String) : String :=
  (m.get k).getD ""

/-- The builtin `delete(m, k)`. -/
def delete (m : GoMap) (k : String) : GoMap :=
  m.filter (fun e => decide (e.1 ≠ k))

/-- The assignment `m[k] = v`. -/
def set (m : GoMap) (k v : String) : GoMap :=
  (k, v) :: m.delete k

/-- The guarded assignment `if c { m[k] = v }`. -/
def setWhen (m : GoMap) (c : Prop) [Decidable c] (k v : String) : GoMap :=
  if c then m.set k v else m

/-- The guarded assignment `if p != nil { m[k] = f(*p) }`, where `o` is the
rendering of the pointed-to value when the pointer is set. -/
def setSome (m : GoMap) (k : String) (o : Option String) : GoMap :=
  match o with
  | some v => m.set k v
  | none => m

/-- The keys of the map, each once: what `for k := range m` enumerates. -/
def keys : GoMap → List String
  | [] => []
  | (k, _) :: m => k :: (keys m).filter (fun k' => decide (k' ≠ k))

/-- Well-formed representation: no key is listed twice. -/
def WF (m : GoMap) : Prop :=
  (m.map Prod.fst).Nodup

/-- The map holds the key. -/
def Contains (m : GoMap) (k : String) : Prop :=
  m.get k ≠ none

instance (m : GoMap) (k : String) : Decidable (m.Contains k) := by
  unfold Contains; infer_instance

end GoMap

/-- The loop `for k, v := range params { if v == "" { delete(params, k) } }`. -/
def dropEmpty (params : GoMap) : GoMap :=
  params.foldl (fun acc e => if e.2 = "" then acc.delete e.1 else acc) params

/-! ## Shared helpers -/

/-- The loop body of `intListToCDString`, from index `i` on. -/
def intListToCDStringLoop : Nat → List Int → String → String
  | _, [], CDString => CDString
  | i, item :: rest, CDString =>
    intListToCDStringLoop (i + 1) rest
      (if i = 0 then Itoa item else CDString ++ "," ++ Itoa item)

/-- Go `intListToCDString`. -/
def intListToCDString (integers : List Int) : String :=
  intListToCDStringLoop 0 integers ""

/-- Go `validCommonParameters`. -/
def validCommonParameters (name hostname : String) (resolution : Int) : Option String :=
  if name = "" then
    some "invalid value for `Name`, must contain non-empty string"
  else if hostname = "" then
    some "invalid value for `Hostname`, must contain non-empty string"
  else if resolution ≠ 0 ∧ resolution ≠ 1 ∧ resolution ≠ 5 ∧ resolution ≠ 15 ∧
      resolution ≠ 30 ∧ resolution ≠ 60 then
    some ("invalid value " ++ Itoa resolution ++
      " for `Resolution`, allowed values are [1,5,15,30,60]")
  else
    none

/-! ## Check definitions -/

/-- Go `HttpCheck`. -/
structure HttpCheck where
  Name : String
  Hostname : String
  Resolution : Int
  Paused : Bool
  SendNotificationWhenDown : Int
  NotifyAgainEvery : Int
  NotifyWhenBackup : Bool
  Url : String
  Encryption : Bool
  Port : Int
  Username : String
  Password : String
  ShouldContain : String
  ShouldNotContain : String
  PostData : String
  RequestHeaders : GoMap
  IntegrationIds : List Int
  ResponseTimeThreshold : Int
  Tags : String
  ProbeFilters : String
  UserIds : List Int
  TeamIds : List Int
  VerifyCertificate : Option Bool
  SSLDownDaysBefore : Option Int

/-- Go `PingCheck`. -/
structure PingCheck where
  Name : String
  Hostname : String
  Resolution : Int
  Paused : Bool
  SendNotificationWhenDown : Int
  NotifyAgainEvery : Int
  NotifyWhenBackup : Bool
  IntegrationIds : List Int
  Tags : String
  ResponseTimeThreshold : Int
  ProbeFilters : String
  UserIds : List Int
  TeamIds : List Int

/-- Go `TCPCheck`. -/
structure TCPCheck where
  Name : String
  Hostname : String
  Resolution : Int
  Paused : Bool
  SendNotificationWhenDown : Int
  NotifyAgainEvery : Int
  NotifyWhenBackup : Bool
  IntegrationIds : List Int
  Tags : String
  ProbeFilters : String
  UserIds : List Int
  TeamIds : List Int
  Port : Int
  StringToSend : String
  StringToExpect : String

/-- Go `DNSCheck`. -/
structure DNSCheck where
  Name : String
  Hostname : String
  ExpectedIP : String
  NameServer : String
  Resolution : Int
  Paused : Bool
  SendNotificationWhenDown : Int
  NotifyAgainEvery : Int
  NotifyWhenBackup : Bool
  IntegrationIds : List Int
  Tags : String
  ProbeFilters : String
  UserIds : List Int
  TeamIds : List Int

/-! ## HTTP checks -/

/-- The key `fmt.Sprintf("requestheader%d", i)`. -/
def requestHeaderKey (i : Nat) : String :=
  "requestheader" ++ Itoa (Int.ofNat i)

/-- The loop `for i, k := range headers { m[requestheader<i>] = k:RequestHeaders[k] }`,
from index `i` on. -/
def headerLoop (RequestHeaders : GoMap) : Nat → List String → GoMap → GoMap
  | _, [], m => m
  | i, k :: rest, m =>
    headerLoop RequestHeaders (i + 1) rest
      (m.set (requestHeaderKey i) (k ++ ":" ++ RequestHeaders.index k))

/-- Go `(*HttpCheck).PutParams`, up to the request headers: the map literal and
the conditional assignments of the scalar fields. -/
def HttpCheck.PutParamsFields (ck : HttpCheck) : GoMap :=
  let m : GoMap := [
    ("name", ck.Name),
    ("host", ck.Hostname),
    ("paused", FormatBool ck.Paused),
    ("notifyagainevery", Itoa ck.NotifyAgainEvery),
    ("notifywhenbackup", FormatBool ck.NotifyWhenBackup),
    ("url", ck.Url),
    ("encryption", FormatBool ck.Encryption),
    ("postdata", ck.PostData),
    ("integrationids", intListToCDString ck.IntegrationIds),
    ("tags", ck.Tags),
    ("probe_filters", ck.ProbeFilters),
    ("userids", intListToCDString ck.UserIds),
    ("teamids", intListToCDString ck.TeamIds)]
  let m := m.setWhen (ck.Resolution ≠ 0) "resolution" (Itoa ck.Resolution)
  let m := m.setWhen (ck.SendNotificationWhenDown ≠ 0) "sendnotificationwhendown" (Itoa ck.SendNotificationWhenDown)
  let m := m.setWhen (ck.Port ≠ 0) "port" (Itoa ck.Port)
  let m := m.setWhen (ck.SendNotificationWhenDown ≠ 0) "sendnotificationwhendown" (Itoa ck.SendNotificationWhenDown)
  let m := m.setWhen (ck.ResponseTimeThreshold ≠ 0) "responsetime_threshold" (Itoa ck.ResponseTimeThreshold)
  let m := m.setSome "verify_certificate" (ck.VerifyCertificate.map FormatBool)
  let m := m.setSome "ssl_down_days_before" (ck.SSLDownDaysBefore.map Itoa)
  let m := if ck.ShouldContain ≠ "" then m.set "shouldcontain" ck.ShouldContain
    else m.set "shouldnotcontain" ck.ShouldNotContain
  let m := m.setWhen (ck.Username ≠ "") "auth" (ck.Username ++ ":" ++ ck.Password)
  m

/-- Go `(*HttpCheck).PutParams`: the scalar fields, then the request headers
under their sorted names. -/
def HttpCheck.PutParams (ck : HttpCheck) : GoMap :=
  let m := ck.PutParamsFields
  let headers := sortStrings ck.RequestHeaders.keys
  headerLoop ck.RequestHeaders 0 headers m

/-- Go `(*HttpCheck).PostParams`. -/
def HttpCheck.PostParams (ck : HttpCheck) : GoMap :=
  (dropEmpty ck.PutParams).set "type" "http"

/-- Go `(*HttpCheck).Valid`. -/
def HttpCheck.Valid (ck : HttpCheck) : Option String :=
  match validCommonParameters ck.Name ck.Hostname ck.Resolution with
  | some err => some err
  | none =>
    if ck.ShouldContain ≠ "" ∧ ck.ShouldNotContain ≠ "" then
      some "`ShouldContain` and `ShouldNotContain` must not be declared at the same time"
    else
      none

/-! ## Ping checks -/

/-- Go `(*PingCheck).PutParams`. -/
def PingCheck.PutParams (ck : PingCheck) : GoMap :=
  let m : GoMap := [
    ("name", ck.Name),
    ("host", ck.Hostname),
    ("paused", FormatBool ck.Paused),
    ("notifyagainevery", Itoa ck.NotifyAgainEvery),
    ("notifywhenbackup", FormatBool ck.NotifyWhenBackup),
    ("integrationids", intListToCDString ck.IntegrationIds),
    ("probe_filters", ck.ProbeFilters),
    ("userids", intListToCDString ck.UserIds),
    ("teamids", intListToCDString ck.TeamIds)]
  let m := m.setWhen (ck.Resolution ≠ 0) "resolution" (Itoa ck.Resolution)
  let m := m.setWhen (ck.SendNotificationWhenDown ≠ 0) "sendnotificationwhendown" (Itoa ck.SendNotificationWhenDown)
  let m := m.setWhen (ck.ResponseTimeThreshold ≠ 0) "responsetime_threshold" (Itoa ck.ResponseTimeThreshold)
  m

/-- Go `(*PingCheck).PostParams`. -/
def PingCheck.PostParams (ck : PingCheck) : GoMap :=
  (dropEmpty ck.PutParams).set "type" "ping"

/-- Go `(*PingCheck).Valid`. -/
def PingCheck.Valid (ck : PingCheck) : Option String :=
  match validCommonParameters ck.Name ck.Hostname ck.Resolution with
  | some err => some err
  | none => none

/-! ## TCP checks -/

/-- Go `(*TCPCheck).PutParams`. -/
def TCPCheck.PutParams (ck : TCPCheck) : GoMap :=
  let m : GoMap := [
    ("name", ck.Name),
    ("host", ck.Hostname),
    ("paused", FormatBool ck.Paused),
    ("notifyagainevery", Itoa ck.NotifyAgainEvery),
    ("notifywhenbackup", FormatBool ck.NotifyWhenBackup),
    ("integrationids", intListToCDString ck.IntegrationIds),
    ("probe_filters", ck.ProbeFilters),
    ("tags", ck.Tags),
    ("userids", intListToCDString ck.UserIds),
    ("teamids", intListToCDString ck.TeamIds),
    ("port", Itoa ck.Port)]
  let m := m.setWhen (ck.Resolution ≠ 0) "resolution" (Itoa ck.Resolution)
  let m := m.setWhen (ck.SendNotificationWhenDown ≠ 0) "sendnotificationwhendown" (Itoa ck.SendNotificationWhenDown)
  let m := m.setWhen (ck.StringToSend ≠ "") "stringtosend" ck.StringToSend
  let m := m.setWhen (ck.StringToExpect ≠ "") "stringtoexpect" ck.StringToExpect
  m

/-- Go `(*TCPCheck).PostParams`. -/
def TCPCheck.PostParams (ck : TCPCheck) : GoMap :=
  (dropEmpty ck.PutParams).set "type" "tcp"

/-- Go `(*TCPCheck).Valid`. -/
def TCPCheck.Valid (ck : TCPCheck) : Option String :=
  match validCommonParameters ck.Name ck.Hostname ck.Resolution with
  | some err => some err
  | none =>
    if ck.Port < 1 ∨ ck.Port > 65535 then
      some "Invalid value for `Port`.  Must contain an integer >= 1 and <= 65535"
    else
      none

/-! ## DNS checks -/

/-- Go `(*DNSCheck).PutParams`. -/
def DNSCheck.PutParams (ck : DNSCheck) : GoMap :=
  let m : GoMap := [
    ("name", ck.Name),
    ("host", ck.Hostname),
    ("expectedip", ck.ExpectedIP),
    ("nameserver", ck.NameServer),
    ("paused", FormatBool ck.Paused),
    ("notifyagainevery", Itoa ck.NotifyAgainEvery),
    ("notifywhenbackup", FormatBool ck.NotifyWhenBackup),
    ("integrationids", intListToCDString ck.IntegrationIds),
    ("probe_filters", ck.ProbeFilters),
    ("tags", ck.Tags),
    ("userids", intListToCDString ck.UserIds),
    ("teamids", intListToCDString ck.TeamIds)]
  let m := m.setWhen (ck.Resolution ≠ 0) "resolution" (Itoa ck.Resolution)
  let m := m.setWhen (ck.SendNotificationWhenDown ≠ 0) "sendnotificationwhendown" (Itoa ck.SendNotificationWhenDown)
  m

/-- Go `(*DNSCheck).PostParams`. -/
def DNSCheck.PostParams (ck : DNSCheck) : GoMap :=
  (dropEmpty ck.PutParams).set "type" "dns"

/-- Go `(*DNSCheck).Valid`. -/
def DNSCheck.Valid (ck : DNSCheck) : Option String :=
  match validCommonParameters ck.Name ck.Hostname ck.Resolution with
  | some err => some err
  | none =>
    if ck.ExpectedIP = "" then
      some "invalid value for `ExpectedIP`, must contain non-empty string"
    else if ck.NameServer = "" then
      some "invalid value for `NameServer`, must contain non-empty string"
    else
      none

/-! ## Summary performance requests -/

/-- Go `SummaryPerformanceRequest`. -/
structure SummaryPerformanceRequest where
  Id : Int
  From : Int
  To : Int
  Resolution : String
  IncludeUptime : Bool
  Probes : String
  Order : String

/-- Modelled from the spec: the package-level error values returned by
`SummaryPerformanceRequest.Valid`, which `check_types.go` uses and does not
declare. The spec describes them as two distinguished, pre-defined error values,
one for a missing ID and one for a bad resolution, that callers match by
identity. -/
inductive SentinelError where
  | missingId
  | badResolution
  deriving DecidableEq, Repr

/-- Modelled from the spec: the package-level value `ErrMissingId`, the error
kind of a missing ID. -/
def ErrMissingId : SentinelError := SentinelError.missingId

/-- Modelled from the spec: the package-level value `ErrBadResolution`, the error
kind of a bad resolution. -/
def ErrBadResolution : SentinelError := SentinelError.badResolution

/-- Go `SummaryPerformanceRequest.Valid`. -/
def SummaryPerformanceRequest.Valid (csr : SummaryPerformanceRequest) : Option SentinelError :=
  if csr.Id = 0 then
    some ErrMissingId
  else if csr.Resolution ≠ "" ∧ csr.Resolution ≠ "hour" ∧ csr.Resolution ≠ "day" ∧
      csr.Resolution ≠ "week" then
    some ErrBadResolution
  else
    none

/-- Go `SummaryPerformanceRequest.GetParams`. -/
def SummaryPerformanceRequest.GetParams (csr : SummaryPerformanceRequest) : GoMap :=
  let params : GoMap := []
  let params := params.setWhen (csr.Resolution ≠ "") "resolution" csr.Resolution
  let params := params.setWhen (csr.IncludeUptime = true) "includeuptime" "true"
  params

/-! ## Sample checks -/

/-- An HTTP check with two request headers, given out of order. -/
def sampleHttp : HttpCheck where
  Name := "web"
  Hostname := "example.com"
  Resolution := 0
  Paused := false
  SendNotificationWhenDown := 0
  NotifyAgainEvery := 0
  NotifyWhenBackup := false
  Url := "/"
  Encryption := true
  Port := 0
  Username := ""
  Password := "secret"
  ShouldContain := ""
  ShouldNotContain := ""
  PostData := ""
  RequestHeaders := [("Z", "1"), ("A", "2")]
  IntegrationIds := []
  ResponseTimeThreshold := 0
  Tags := ""
  ProbeFilters := ""
  UserIds := [3, 1, 2]
  TeamIds := [7]
  VerifyCertificate := some false
  SSLDownDaysBefore := some 0

/-- A ping check. -/
def samplePing : PingCheck where
  Name := "ping"
  Hostname := "example.com"
  Resolution := 5
  Paused := false
  SendNotificationWhenDown := 0
  NotifyAgainEvery := 0
  NotifyWhenBackup := true
  IntegrationIds := []
  Tags := "a,b"
  ResponseTimeThreshold := 0
  ProbeFilters := ""
  UserIds := []
  TeamIds := []

/-- A TCP check. -/
def sampleTcp : TCPCheck where
  Name := "tcp"
  Hostname := "example.com"
  Resolution := 1
  Paused := true
  SendNotificationWhenDown := 2
  NotifyAgainEvery := 0
  NotifyWhenBackup := false
  IntegrationIds := [1]
  Tags := ""
  ProbeFilters := ""
  UserIds := []
  TeamIds := []
  Port := 22
  StringToSend := ""
  StringToExpect := ""

/-- A DNS check. -/
def sampleDns : DNSCheck where
  Name := "dns"
  Hostname := "example.com"
  ExpectedIP := "192.0.2.1"
  NameServer := ""
  Resolution := 60
  Paused := false
  SendNotificationWhenDown := 0
  NotifyAgainEvery := 0
  NotifyWhenBackup := false
  IntegrationIds := []
  Tags := ""
  ProbeFilters := ""
  UserIds := []
  TeamIds := []

/-- A ping check with neither name nor hostname. -/
def samplePingUnnamed : PingCheck where
  Name := ""
  Hostname := ""
  Resolution := 7
  Paused := false
  SendNotificationWhenDown := 0
  NotifyAgainEvery := 0
  NotifyWhenBackup := false
  IntegrationIds := []
  Tags := ""
  ResponseTimeThreshold := 0
  ProbeFilters := ""
  UserIds := []
  TeamIds := []

/-- A DNS check with valid common fields and neither expected IP nor name
server. -/
def sampleDnsBare : DNSCheck where
  Name := "dns"
  Hostname := "example.com"
  ExpectedIP := ""
  NameServer := ""
  Resolution := 5
  Paused := false
  SendNotificationWhenDown := 0
  NotifyAgainEvery := 0
  NotifyWhenBackup := false
  IntegrationIds := []
  Tags := ""
  ProbeFilters := ""
  UserIds := []
  TeamIds := []

/-- A summary performance request without an ID. -/
def sampleSummaryNoId : SummaryPerformanceRequest where
  Id := 0
  From := 0
  To := 0
  Resolution := "month"
  IncludeUptime := false
  Probes := ""
  Order := ""

/-- A summary performance request with an ID and the resolution `"month"`. -/
def sampleSummaryMonth : SummaryPerformanceRequest where
  Id := 7
  From := 1
  To := 2
  Resolution := "month"
  IncludeUptime := true
  Probes := "1,2"
  Order := "asc"

/-! ## The integer-list encoding, as specified -/

/-- The decimal renderings of the elements, in input order, joined by single
commas: the specified result of `intListToCDString`. -/
def commaJoinedDecimals (integers : List Int) : String :=
  ",".intercalate (integers.map Itoa)

/-! ## Reading the integer-list encoding back, as specified -/

/-- Splitting a character sequence at every comma. -/
def splitCommas : List Char → List (List Char)
  | [] => [[]]
  | c :: cs =>
    if c = ',' then [] :: splitCommas cs
    else
      match splitCommas cs with
      | [] => [[c]]
      | piece :: pieces => (c :: piece) :: pieces

/-- Parsing a non-empty run of decimal digits as a natural number. -/
def parseDigits (ds : List Char) : Option Nat :=
  if ds ≠ [] ∧ ds.all Char.isDigit = true then some (digitsValue ds) else none

/-- Parsing a piece as a decimal integer: an optional minus sign, then digits. -/
def parseDecimal : List Char → Option Int
  | [] => none
  | c :: ds =>
    if c = '-' then (parseDigits ds).map (fun n => -(Int.ofNat n))
    else (parseDigits (c :: ds)).map Int.ofNat

/-- Parsing every piece as a decimal integer. -/
def parseDecimals : List (List Char) → Option (List Int)
  | [] => some []
  | piece :: pieces =>
    match parseDecimal piece, parseDecimals pieces with
    | some x, some xs => some (x :: xs)
    | _, _ => none

/-- Reading a comma-separated decimal string back: the empty string is the
empty list, any other string is split on commas and each piece is parsed as a
decimal integer. -/
def parseCDString (s : String) : Option (List Int) :=
  if s = "" then some [] else parseDecimals (splitCommas s.data)

/-! ## Zero omission, as specified -/

/-- The map holds the key `k` exactly when `x` is non-zero, and a value held
under `k` is the decimal rendering of `x`. -/
def ZeroOmitted (m : GoMap) (k : String) (x : Int) : Prop :=
  (m.Contains k ↔ x ≠ 0) ∧ ∀ v, m.get k = some v → v = Itoa x

/-! ## Shapes of entries, as specified -/

/-- The update encoding `put` holds under `k` the encoding of the list `ids`,
which is the comma-joined decimal string; for the empty list that is the empty
string, and then the create encoding `post` does not hold `k`, while for any
other list `post` holds the same value. -/
def ListEncodedAt (put post : GoMap) (k : String) (ids : List Int) : Prop :=
  put.get k = some (intListToCDString ids) ∧
  intListToCDString ids = commaJoinedDecimals ids ∧
  (ids = [] → put.get k = some "" ∧ post.get k = none) ∧
  (ids ≠ [] → post.get k = some (intListToCDString ids))

/-- The create encoding `post` holds `"paused"` and `"notifywhenbackup"` as
`"true"` or `"false"` after the flags and `"notifyagainevery"` as the decimal
rendering of `again`; with `paused` false and `again` zero these are `"false"`
and `"0"`. -/
def FlagsKept (post : GoMap) (paused backup : Bool) (again : Int) : Prop :=
  post.get "paused" = some (if paused = true then "true" else "false") ∧
  post.get "notifywhenbackup" = some (if backup = true then "true" else "false") ∧
  post.get "notifyagainevery" = some (Itoa again) ∧
  (paused = false → again = 0 →
    post.get "paused" = some "false" ∧ post.get "notifyagainevery" = some "0")

/-- The result `valid` of a validator is the failure of the first violated
shared rule, in the order `Name`, `Hostname`, `Resolution`. -/
def FailsAtFirstCommonRule (valid : Option String) (name hostname : String)
    (resolution : Int) : Prop :=
  (name = "" → valid = some "invalid value for `Name`, must contain non-empty string") ∧
  (name ≠ "" → hostname = "" →
    valid = some "invalid value for `Hostname`, must contain non-empty string") ∧
  (name ≠ "" → hostname ≠ "" → resolution ∉ ([0, 1, 5, 15, 30, 60] : List Int) →
    valid = some ("invalid value " ++ Itoa resolution ++
      " for `Resolution`, allowed values are [1,5,15,30,60]"))

/-! ## Facts about decimal rendering -/

theorem digitsValue_snoc (l : List Char) (c : Char) :
    digitsValue (l ++ [c]) = 10 * digitsValue l + (c.toNat - 48) := by
  simp [digitsValue, List.foldl_append]

theorem digitChar_value {m : Nat} (h : m < 10) : (Nat.digitChar m).toNat - 48 = m := by
  interval_cases m <;> decide

theorem toDigitsCore_acc (f : Nat) : ∀ (n : Nat) (ds : List Char),
    Nat.toDigitsCore 10 f n ds = Nat.toDigitsCore 10 f n [] ++ ds := by
  induction f with
  | zero => intro n ds; simp [Nat.toDigitsCore]
  | succ f ih =>
    intro n ds
    simp only [Nat.toDigitsCore]
    by_cases h : n / 10 = 0
    · simp [h]
    · rw [if_neg h, if_neg h, ih (n / 10) (Nat.digitChar (n % 10) :: ds),
        ih (n / 10) [Nat.digitChar (n % 10)]]
      simp

theorem toDigitsCore_ne_nil (f n : Nat) (ds : List Char) :
    Nat.toDigitsCore 10 (f + 1) n ds ≠ [] := by
  simp only [Nat.toDigitsCore]
  by_cases h : n / 10 = 0
  · simp [h]
  · rw [if_neg h, toDigitsCore_acc]
    simp

theorem digitsValue_toDigitsCore (f : Nat) : ∀ n : Nat, n < f →
    digitsValue (Nat.toDigitsCore 10 f n []) = n := by
  induction f with
  | zero => intro n h; omega
  | succ f ih =>
    intro n h
    simp only [Nat.toDigitsCore]
    by_cases h0 : n / 10 = 0
    · rw [if_pos h0]
      have hlt : n < 10 := by omega
      have hmod : n % 10 = n := Nat.mod_eq_of_lt hlt
      rw [hmod]
      simpa [digitsValue] using digitChar_value hlt
    · rw [if_neg h0, toDigitsCore_acc, digitsValue_snoc, ih (n / 10) (by omega),
        digitChar_value (Nat.mod_lt n (by decide))]
      omega

theorem natRepr_injective : Function.Injective Nat.repr := by
  intro a b h
  have hd : Nat.toDigits 10 a = Nat.toDigits 10 b := by
    simpa [Nat.repr] using h
  have ha := digitsValue_toDigitsCore (a + 1) a (Nat.lt_succ_self a)
  have hb := digitsValue_toDigitsCore (b + 1) b (Nat.lt_succ_self b)
  unfold Nat.toDigits at hd
  rw [hd] at ha
  exact ha.symm.trans hb

theorem natRepr_ne_empty (n : Nat) : Nat.repr n ≠ "" := by
  intro h
  have hd : (Nat.repr n).data = [] := by rw [h]
  exact toDigitsCore_ne_nil n n [] hd

theorem Itoa_ne_empty (i : Int) : Itoa i ≠ "" := by
  cases i with
  | ofNat n => exact natRepr_ne_empty n
  | negSucc n =>
    intro h
    have hd : (Itoa (Int.negSucc n)).data = [] := by rw [h]
    simp [Itoa, String.data_append] at hd

theorem FormatBool_ne_empty (b : Bool) : FormatBool b ≠ "" := by
  cases b <;> decide

theorem digitChar_isDigit {m : Nat} (h : m < 10) : (Nat.digitChar m).isDigit = true := by
  interval_cases m <;> decide

theorem toDigitsCore_chars (f : Nat) : ∀ (n : Nat) (ds : List Char) (c : Char),
    c ∈ Nat.toDigitsCore 10 f n ds → c ∈ ds ∨ c.isDigit = true := by
  induction f with
  | zero => intro n ds c h; exact Or.inl h
  | succ f ih =>
    intro n ds c h
    simp only [Nat.toDigitsCore] at h
    by_cases h0 : n / 10 = 0
    · rw [if_pos h0] at h
      rcases List.mem_cons.mp h with h | h
      · exact Or.inr (h ▸ digitChar_isDigit (Nat.mod_lt n (by decide)))
      · exact Or.inl h
    · rw [if_neg h0] at h
      rcases ih _ _ c h with h | h
      · rcases List.mem_cons.mp h with h | h
        · exact Or.inr (h ▸ digitChar_isDigit (Nat.mod_lt n (by decide)))
        · exact Or.inl h
      · exact Or.inr h

theorem natRepr_chars (n : Nat) (c : Char) (h : c ∈ (Nat.repr n).data) : c.isDigit = true := by
  rcases toDigitsCore_chars (n + 1) n [] c h with h | h
  · cases h
  · exact h

/-- Every character of a decimal rendering is the minus sign or a digit. -/
theorem Itoa_chars (i : Int) (c : Char) (h : c ∈ (Itoa i).data) :
    c = '-' ∨ c.isDigit = true := by
  cases i with
  | ofNat n => exact Or.inr (natRepr_chars n c h)
  | negSucc n =>
    simp only [Itoa, String.data_append, List.mem_append] at h
    rcases h with h | h
    · left
      simpa using h
    · exact Or.inr (natRepr_chars _ c h)

theorem Itoa_no_comma (i : Int) : ',' ∉ (Itoa i).data := by
  intro h
  rcases Itoa_chars i _ h with h | h
  · exact absurd h (by decide)
  · exact absurd h (by decide)

theorem Itoa_data_ne_nil (i : Int) : (Itoa i).data ≠ [] := by
  intro h
  exact Itoa_ne_empty i (String.ext h)

/-! ## Facts about the integer-list encoding -/

theorem intListToCDStringLoop_eq_go (rest : List Int) : ∀ (i : Nat) (acc : String),
    intListToCDStringLoop (i + 1) rest acc =
      String.intercalate.go acc "," (rest.map Itoa) := by
  induction rest with
  | nil => intro i acc; rfl
  | cons x rest ih =>
    intro i acc
    simp only [intListToCDStringLoop, List.map_cons, String.intercalate.go]
    rw [if_neg (Nat.succ_ne_zero i)]
    exact ih (i + 1) _

theorem intListToCDString_eq (integers : List Int) :
    intListToCDString integers = commaJoinedDecimals integers := by
  cases integers with
  | nil => rfl
  | cons x rest =>
    show intListToCDStringLoop (0 + 1) rest (Itoa x) = _
    rw [intListToCDStringLoop_eq_go]
    rfl

theorem intListToCDStringLoop_data (rest : List Int) : ∀ (i : Nat) (acc : String),
    (intListToCDStringLoop (i + 1) rest acc).data =
      acc.data ++ (rest.map fun y => ',' :: (Itoa y).data).flatten := by
  induction rest with
  | nil => intro i acc; simp [intListToCDStringLoop]
  | cons x rest ih =>
    intro i acc
    simp only [intListToCDStringLoop, List.map_cons, List.flatten_cons]
    rw [if_neg (Nat.succ_ne_zero i), ih (i + 1)]
    simp only [String.data_append, List.append_assoc]
    rfl

/-- The characters of the encoding of a non-empty list. -/
theorem intListToCDString_data_cons (x : Int) (rest : List Int) :
    (intListToCDString (x :: rest)).data =
      (Itoa x).data ++ (rest.map fun y => ',' :: (Itoa y).data).flatten :=
  intListToCDStringLoop_data rest 0 (Itoa x)

theorem count_comma_separated (rest : List Int) :
    ((rest.map fun y => ',' :: (Itoa y).data).flatten).count ',' = rest.length := by
  induction rest with
  | nil => rfl
  | cons y rest ih =>
    simp only [List.map_cons, List.flatten_cons, List.cons_append, List.count_cons_self,
      List.count_append, ih, List.length_cons]
    rw [List.count_eq_zero.mpr (Itoa_no_comma y)]
    omega

theorem intListToCDString_count_comma (integers : List Int) :
    (intListToCDString integers).data.count ',' = integers.length - 1 := by
  cases integers with
  | nil => rfl
  | cons x rest =>
    rw [intListToCDString_data_cons, List.count_append, count_comma_separated,
      List.count_eq_zero.mpr (Itoa_no_comma x)]
    simp

theorem intListToCDString_head (integers : List Int) :
    (intListToCDString integers).data.head? ≠ some ',' := by
  cases integers with
  | nil => simp [intListToCDString, intListToCDStringLoop]
  | cons x rest =>
    rw [intListToCDString_data_cons, List.head?_append_of_ne_nil _ (Itoa_data_ne_nil x)]
    intro h
    exact Itoa_no_comma x (List.mem_of_mem_head? h)

theorem intListToCDString_getLast (integers : List Int) :
    (intListToCDString integers).data.getLast? ≠ some ',' := by
  cases integers with
  | nil => simp [intListToCDString, intListToCDStringLoop]
  | cons x rest =>
    rw [intListToCDString_data_cons]
    rcases List.eq_nil_or_concat rest with h | ⟨ys, z, h⟩
    · subst h
      simp only [List.map_nil, List.flatten_nil, List.append_nil]
      intro h
      exact Itoa_no_comma x (List.mem_of_mem_getLast? h)
    · subst h
      have hsplit : (Itoa x).data ++
          ((ys.concat z).map fun y => ',' :: (Itoa y).data).flatten =
          ((Itoa x).data ++ (ys.map fun y => ',' :: (Itoa y).data).flatten ++ [',']) ++
            (Itoa z).data := by
        simp [List.concat_eq_append, List.flatten_append]
      rw [hsplit, List.getLast?_append_of_ne_nil _ (Itoa_data_ne_nil z)]
      intro h
      exact Itoa_no_comma z (List.mem_of_mem_getLast? h)

/-! ## Facts about request header keys -/

theorem requestHeaderKey_injective : Function.Injective requestHeaderKey := by
  intro a b h
  unfold requestHeaderKey Itoa at h
  have hd := congrArg String.data h
  simp only [String.data_append] at hd
  have hr : Nat.repr a = Nat.repr b := String.ext (List.append_cancel_left hd)
  exact natRepr_injective hr

theorem requestHeaderKey_take (i : Nat) :
    (requestHeaderKey i).data.take 3 = ['r', 'e', 'q'] := by
  unfold requestHeaderKey
  rw [String.data_append]
  rfl

/-- A key whose first three characters are not `req` is no request header key. -/
theorem ne_requestHeaderKey {k : String}
    (h : k.data.take 3 ≠ ['r', 'e', 'q']) (i : Nat) :
    requestHeaderKey i ≠ k := by
  intro hk
  apply h
  rw [← hk]
  exact requestHeaderKey_take i

/-! ## Facts about Go maps -/

namespace GoMap

theorem get_nil (k : String) : get [] k = none := rfl

theorem get_cons (k' v : String) (m : GoMap) (k : String) :
    get ((k', v) :: m) k = if k' = k then some v else get m k := rfl

theorem get_delete (m : GoMap) (k k' : String) :
    (m.delete k).get k' = if k = k' then none else m.get k' := by
  induction m with
  | nil => simp [delete, get]
  | cons e m ih =>
    obtain ⟨a, b⟩ := e
    unfold delete at ih ⊢
    by_cases hak : a = k
    · subst hak
      by_cases hk : a = k'
      · simp [List.filter_cons, hk] at ih ⊢
        simpa [hk] using ih
      · simp [List.filter_cons, get_cons, hk] at ih ⊢
        simpa [hk] using ih
    · by_cases hk : k = k'
      · subst hk
        simp [List.filter_cons, get_cons, hak] at ih ⊢
        simpa using ih
      · simp [List.filter_cons, get_cons, hak, hk] at ih ⊢
        rw [ih]

theorem get_set (m : GoMap) (k v k' : String) :
    (m.set k v).get k' = if k = k' then some v else m.get k' := by
  unfold set
  rw [get_cons, get_delete]
  by_cases h : k = k' <;> simp [h]

theorem get_set_self (m : GoMap) (k v : String) : (m.set k v).get k = some v := by
  simp [get_set]

theorem get_set_of_ne (m : GoMap) {k k' : String} (v : String) (h : k ≠ k') :
    (m.set k v).get k' = m.get k' := by
  simp [get_set, h]

theorem wf_delete {m : GoMap} (h : m.WF) (k : String) : (m.delete k).WF := by
  unfold WF delete at *
  exact (List.Nodup.sublist (List.Sublist.map _ (List.filter_sublist _)) h)

theorem not_mem_keys_delete (m : GoMap) (k : String) :
    k ∉ (m.delete k).map Prod.fst := by
  simp [delete, List.mem_map, List.mem_filter]

theorem wf_set {m : GoMap} (h : m.WF) (k v : String) : (m.set k v).WF := by
  unfold WF set
  rw [List.map_cons, List.nodup_cons]
  exact ⟨not_mem_keys_delete m k, wf_delete h k⟩

theorem get_eq_none_of_not_mem {m : GoMap} {k : String} (h : k ∉ m.map Prod.fst) :
    m.get k = none := by
  induction m with
  | nil => rfl
  | cons e m ih =>
    obtain ⟨a, b⟩ := e
    simp only [List.map_cons, List.mem_cons, not_or] at h
    rw [get_cons, if_neg (fun hh => h.1 hh.symm)]
    exact ih h.2

theorem mem_of_get_eq_some {m : GoMap} {k v : String} (h : m.get k = some v) :
    (k, v) ∈ m := by
  induction m with
  | nil => simp [get] at h
  | cons e m ih =>
    obtain ⟨a, b⟩ := e
    rw [get_cons] at h
    by_cases hak : a = k
    · rw [if_pos hak] at h
      cases h
      subst hak
      exact List.mem_cons_self _ _
    · rw [if_neg hak] at h
      exact List.mem_cons_of_mem _ (ih h)

theorem get_eq_some_of_mem {m : GoMap} (hwf : m.WF) {k v : String} (h : (k, v) ∈ m) :
    m.get k = some v := by
  induction m with
  | nil => simp at h
  | cons e m ih =>
    obtain ⟨a, b⟩ := e
    unfold WF at hwf
    rw [List.map_cons, List.nodup_cons] at hwf
    rw [get_cons]
    rcases List.mem_cons.mp h with heq | hmem
    · cases heq
      simp
    · have hne : a ≠ k := by
        intro hak
        subst hak
        exact hwf.1 (List.mem_map.mpr ⟨(a, v), hmem, rfl⟩)
      rw [if_neg hne]
      exact ih hwf.2 hmem

end GoMap

/-! ## Facts about string order and sorting -/

theorem lessChars_iff_lt : ∀ (as bs : List Char), lessChars as bs = true ↔ as < bs
  | [], [] => by
    simp only [lessChars]
    constructor
    · intro h; cases h
    · intro h; cases h
  | [], b :: bs => by
    simp only [lessChars]
    exact ⟨fun _ => List.nil_lt_cons b bs, fun _ => trivial⟩
  | a :: as, [] => by
    simp only [lessChars]
    constructor
    · intro h; cases h
    · intro h; cases h
  | a :: as, b :: bs => by
    have ih := lessChars_iff_lt as bs
    simp only [lessChars]
    by_cases hab : a.toNat < b.toNat
    · rw [if_pos hab]
      exact ⟨fun _ => List.Lex.rel hab, fun _ => rfl⟩
    · rw [if_neg hab]
      by_cases hba : b.toNat < a.toNat
      · rw [if_pos hba]
        constructor
        · intro h; cases h
        · intro h
          cases h with
          | rel h' => exact absurd h' hab
          | cons h' => exact absurd hba (Nat.lt_irrefl _)
      · rw [if_neg hba]
        have heq : a = b := Char.ext (UInt32.ext (by
          show a.toNat = b.toNat
          omega))
        subst heq
        exact ih.trans List.Lex.cons_iff.symm

theorem stringLess_iff_lt (a b : String) : stringLess a b = true ↔ a < b :=
  (lessChars_iff_lt a.data b.data).trans String.lt_iff_toList_lt.symm

theorem stringLess_eq_false_iff_le (a b : String) : stringLess b a = false ↔ a ≤ b := by
  rw [← not_lt, ← stringLess_iff_lt]
  simp

theorem sortStrings_perm (l : List String) : (sortStrings l).Perm l :=
  List.perm_insertionSort _ l

theorem sortStrings_sorted_le (l : List String) : (sortStrings l).Sorted (fun a b => a ≤ b) := by
  have hr : ∀ a b : String, stringLess b a = false ↔ a ≤ b := stringLess_eq_false_iff_le
  haveI : IsTotal String (fun a b => stringLess b a = false) :=
    ⟨fun a b => by simpa only [hr] using le_total a b⟩
  haveI : IsTrans String (fun a b => stringLess b a = false) :=
    ⟨fun a b c hab hbc => (hr a c).mpr (le_trans ((hr a b).mp hab) ((hr b c).mp hbc))⟩
  have hs := List.sorted_insertionSort (fun a b : String => stringLess b a = false) l
  exact List.Pairwise.imp (fun {a b} h => (hr a b).mp h) hs

theorem sortStrings_sorted_lt {l : List String} (h : l.Nodup) :
    (sortStrings l).Sorted (fun a b => a < b) :=
  (sortStrings_sorted_le l).lt_of_le ((sortStrings_perm l).nodup_iff.mpr h)

/-! ## Facts about the keys of a map -/

theorem GoMap.mem_keys (m : GoMap) (k : String) : k ∈ m.keys ↔ m.Contains k := by
  induction m with
  | nil => simp [GoMap.keys, GoMap.Contains, GoMap.get]
  | cons e m ih =>
    obtain ⟨a, b⟩ := e
    unfold GoMap.Contains at ih ⊢
    simp only [GoMap.keys, List.mem_cons, List.mem_filter, GoMap.get_cons]
    by_cases hak : a = k
    · simp [hak]
    · have hka : ¬ k = a := fun h => hak h.symm
      simp [hak, hka, ih]

theorem GoMap.nodup_keys (m : GoMap) : m.keys.Nodup := by
  induction m with
  | nil => simp [GoMap.keys]
  | cons e m ih =>
    obtain ⟨a, b⟩ := e
    simp only [GoMap.keys, List.nodup_cons, List.mem_filter]
    refine ⟨fun h => ?_, ih.filter _⟩
    simp at h

/-! ## Facts about the request header loop -/

theorem wf_headerLoop (hdr : GoMap) (ks : List String) : ∀ (i : Nat) (m : GoMap),
    m.WF → (headerLoop hdr i ks m).WF := by
  induction ks with
  | nil => intro i m h; exact h
  | cons k ks ih =>
    intro i m h
    exact ih (i + 1) _ (GoMap.wf_set h _ _)

theorem get_headerLoop_of_ne (hdr : GoMap) (ks : List String) (key : String) :
    ∀ (i : Nat) (m : GoMap), (∀ j, j < ks.length → requestHeaderKey (i + j) ≠ key) →
      (headerLoop hdr i ks m).get key = m.get key := by
  induction ks with
  | nil => intro i m _; rfl
  | cons k ks ih =>
    intro i m h
    have h0 : requestHeaderKey i ≠ key := by
      simpa using h 0 (by simp)
    have hrest : ∀ j, j < ks.length → requestHeaderKey (i + 1 + j) ≠ key := by
      intro j hj
      have := h (j + 1) (by simpa using hj)
      rwa [show i + (j + 1) = i + 1 + j by omega] at this
    show (headerLoop hdr (i + 1) ks _).get key = m.get key
    rw [ih (i + 1) _ hrest, GoMap.get_set_of_ne m _ h0]

theorem get_headerLoop_at (hdr : GoMap) (ks : List String) :
    ∀ (i : Nat) (m : GoMap) (j : Nat) (hj : j < ks.length),
      (headerLoop hdr i ks m).get (requestHeaderKey (i + j)) =
        some (ks.get ⟨j, hj⟩ ++ ":" ++ hdr.index (ks.get ⟨j, hj⟩)) := by
  induction ks with
  | nil => intro i m j hj; simp at hj
  | cons k ks ih =>
    intro i m j hj
    show (headerLoop hdr (i + 1) ks _).get _ = _
    cases j with
    | zero =>
      have hne : ∀ j, j < ks.length → requestHeaderKey (i + 1 + j) ≠ requestHeaderKey (i + 0) := by
        intro j _ he
        have := requestHeaderKey_injective he
        omega
      rw [get_headerLoop_of_ne hdr ks _ (i + 1) _ hne]
      simp [GoMap.get_set]
    | succ j =>
      have hj' : j < ks.length := by simpa using hj
      have := ih (i + 1) (m.set (requestHeaderKey i) (k ++ ":" ++ hdr.index k)) j hj'
      rw [show i + (j + 1) = i + 1 + j by omega]
      simpa using this

/-! ## The empty-value drop -/

theorem get_foldl_drop (l : List (String × String)) (acc : GoMap) (k : String) :
    GoMap.get (l.foldl (fun acc e => if e.2 = "" then acc.delete e.1 else acc) acc) k =
      if (k, "") ∈ l then none else acc.get k := by
  induction l generalizing acc with
  | nil => simp
  | cons e l ih =>
    obtain ⟨a, b⟩ := e
    rw [List.foldl_cons, ih]
    by_cases hl : (k, "") ∈ l
    · simp [hl]
    · by_cases hb : b = ""
      · subst hb
        by_cases hak : a = k
        · subst hak
          simp [GoMap.get_delete]
        · have hne : ¬ k = a := fun hh => hak hh.symm
          simp [hl, GoMap.get_delete, hak, hne]
      · have hne : ¬ "" = b := fun hh => hb hh.symm
        simp [hl, hb, hne]

theorem get_dropEmpty {m : GoMap} (hwf : m.WF) (k : String) :
    (dropEmpty m).get k = if m.get k = some "" then none else m.get k := by
  unfold dropEmpty
  rw [get_foldl_drop]
  by_cases h : (k, "") ∈ m
  · rw [if_pos h, if_pos (GoMap.get_eq_some_of_mem hwf h)]
  · have h2 : ¬ m.get k = some "" := fun hh => h (GoMap.mem_of_get_eq_some hh)
    rw [if_neg h, if_neg h2]

theorem get_dropEmpty_eq_some {m : GoMap} (hwf : m.WF) (k v : String) :
    (dropEmpty m).get k = some v ↔ m.get k = some v ∧ v ≠ "" := by
  rw [get_dropEmpty hwf]
  by_cases h : m.get k = some ""
  · rw [if_pos h, h]
    constructor
    · intro hh
      cases hh
    · rintro ⟨h1, h2⟩
      cases h1
      exact absurd rfl h2
  · rw [if_neg h]
    constructor
    · intro hh
      refine ⟨hh, ?_⟩
      rintro rfl
      exact h hh
    · exact fun hh => hh.1

/-- Reading a create encoding: the discriminant at `"type"`, elsewhere the
update encoding without its empty values. -/
theorem get_set_type_dropEmpty {m : GoMap} (hwf : m.WF) (t k v : String) :
    ((dropEmpty m).set "type" t).get k = some v ↔
      (k = "type" ∧ v = t) ∨ (k ≠ "type" ∧ m.get k = some v ∧ v ≠ "") := by
  rw [GoMap.get_set]
  by_cases hk : "type" = k
  · subst hk
    simp [eq_comm]
  · have hk' : ¬ k = "type" := fun h => hk h.symm
    rw [if_neg hk, get_dropEmpty_eq_some hwf]
    simp [hk']


/-! ## Well-formedness and shape of the update encodings -/

theorem GoMap.get_ite (c : Prop) [Decidable c] (a b : GoMap) (k : String) :
    (if c then a else b).get k = if c then a.get k else b.get k := by
  split <;> rfl

theorem GoMap.get_setWhen (m : GoMap) (c : Prop) [Decidable c] (k v k' : String) :
    (m.setWhen c k v).get k' = if c ∧ k = k' then some v else m.get k' := by
  unfold GoMap.setWhen
  by_cases hc : c <;> simp [hc, GoMap.get_set]

theorem GoMap.get_setSome (m : GoMap) (k : String) (o : Option String) (k' : String) :
    (m.setSome k o).get k' = if k = k' then (o.orElse fun _ => m.get k') else m.get k' := by
  cases o with
  | none => simp [GoMap.setSome]
  | some v => simp [GoMap.setSome, GoMap.get_set]

theorem GoMap.wf_ite {c : Prop} [Decidable c] {a b : GoMap} (ha : a.WF) (hb : b.WF) :
    (if c then a else b).WF := by
  split <;> assumption

theorem GoMap.wf_setWhen {m : GoMap} (h : m.WF) (c : Prop) [Decidable c] (k v : String) :
    (m.setWhen c k v).WF :=
  GoMap.wf_ite (GoMap.wf_set h k v) h

theorem GoMap.wf_setSome {m : GoMap} (h : m.WF) (k : String) (o : Option String) :
    (m.setSome k o).WF := by
  cases o with
  | none => exact h
  | some v => exact GoMap.wf_set h k v

theorem HttpCheck.wf_http_fields (ck : HttpCheck) : ck.PutParamsFields.WF := by
  unfold HttpCheck.PutParamsFields
  simp only []
  repeat' (first
    | (simp only [GoMap.WF, List.map]; decide)
    | apply GoMap.wf_ite
    | apply GoMap.wf_setWhen
    | apply GoMap.wf_setSome
    | apply GoMap.wf_set)

theorem HttpCheck.wf_http_put (ck : HttpCheck) : ck.PutParams.WF :=
  wf_headerLoop _ _ _ _ ck.wf_http_fields

theorem PingCheck.wf_ping_put (ck : PingCheck) : ck.PutParams.WF := by
  unfold PingCheck.PutParams
  simp only []
  repeat' (first
    | (simp only [GoMap.WF, List.map]; decide)
    | apply GoMap.wf_setWhen)

theorem TCPCheck.wf_tcp_put (ck : TCPCheck) : ck.PutParams.WF := by
  unfold TCPCheck.PutParams
  simp only []
  repeat' (first
    | (simp only [GoMap.WF, List.map]; decide)
    | apply GoMap.wf_setWhen)

theorem DNSCheck.wf_dns_put (ck : DNSCheck) : ck.PutParams.WF := by
  unfold DNSCheck.PutParams
  simp only []
  repeat' (first
    | (simp only [GoMap.WF, List.map]; decide)
    | apply GoMap.wf_setWhen)

/-- Reading the update encoding of an HTTP check at a key that is no request
header key reads the scalar fields. -/
theorem HttpCheck.get_PutParams_of_ne (ck : HttpCheck) {k : String}
    (h : ∀ i, requestHeaderKey i ≠ k) : ck.PutParams.get k = ck.PutParamsFields.get k :=
  get_headerLoop_of_ne _ _ _ _ _ (fun j _ => h (0 + j))

theorem HttpCheck.http_put_no_type (ck : HttpCheck) : ck.PutParams.get "type" = none := by
  rw [ck.get_PutParams_of_ne (ne_requestHeaderKey (by decide))]
  unfold HttpCheck.PutParamsFields
  simp [GoMap.get_ite, GoMap.get_set, GoMap.get_setWhen, GoMap.get_setSome, GoMap.get_cons,
    GoMap.get_nil]

theorem PingCheck.ping_put_no_type (ck : PingCheck) : ck.PutParams.get "type" = none := by
  unfold PingCheck.PutParams
  simp [GoMap.get_setWhen, GoMap.get_cons, GoMap.get_nil]

theorem TCPCheck.tcp_put_no_type (ck : TCPCheck) : ck.PutParams.get "type" = none := by
  unfold TCPCheck.PutParams
  simp [GoMap.get_setWhen, GoMap.get_cons, GoMap.get_nil]

theorem DNSCheck.dns_put_no_type (ck : DNSCheck) : ck.PutParams.get "type" = none := by
  unfold DNSCheck.PutParams
  simp [GoMap.get_setWhen, GoMap.get_cons, GoMap.get_nil]

/-! ## Reading the scalar fields of an HTTP update encoding -/

theorem HttpCheck.get_PutParamsFields_shouldcontain (ck : HttpCheck) :
    ck.PutParamsFields.get "shouldcontain" =
      if ck.ShouldContain ≠ "" then some ck.ShouldContain else none := by
  unfold HttpCheck.PutParamsFields
  simp [GoMap.get_ite, GoMap.get_set, GoMap.get_setWhen, GoMap.get_setSome, GoMap.get_cons,
    GoMap.get_nil]

theorem HttpCheck.get_PutParamsFields_shouldnotcontain (ck : HttpCheck) :
    ck.PutParamsFields.get "shouldnotcontain" =
      if ck.ShouldContain ≠ "" then none else some ck.ShouldNotContain := by
  unfold HttpCheck.PutParamsFields
  simp [GoMap.get_ite, GoMap.get_set, GoMap.get_setWhen, GoMap.get_setSome, GoMap.get_cons,
    GoMap.get_nil]

theorem HttpCheck.get_PutParamsFields_resolution (ck : HttpCheck) :
    ck.PutParamsFields.get "resolution" =
      if ck.Resolution ≠ 0 then some (Itoa ck.Resolution) else none := by
  unfold HttpCheck.PutParamsFields
  simp [GoMap.get_ite, GoMap.get_set, GoMap.get_setWhen, GoMap.get_setSome, GoMap.get_cons,
    GoMap.get_nil]

theorem HttpCheck.get_PutParamsFields_sendnotificationwhendown (ck : HttpCheck) :
    ck.PutParamsFields.get "sendnotificationwhendown" =
      if ck.SendNotificationWhenDown ≠ 0 then some (Itoa ck.SendNotificationWhenDown)
      else none := by
  unfold HttpCheck.PutParamsFields
  simp [GoMap.get_ite, GoMap.get_set, GoMap.get_setWhen, GoMap.get_setSome, GoMap.get_cons,
    GoMap.get_nil]

theorem HttpCheck.get_PutParamsFields_port (ck : HttpCheck) :
    ck.PutParamsFields.get "port" = if ck.Port ≠ 0 then some (Itoa ck.Port) else none := by
  unfold HttpCheck.PutParamsFields
  simp [GoMap.get_ite, GoMap.get_set, GoMap.get_setWhen, GoMap.get_setSome, GoMap.get_cons,
    GoMap.get_nil]

theorem HttpCheck.get_PutParamsFields_responsetime_threshold (ck : HttpCheck) :
    ck.PutParamsFields.get "responsetime_threshold" =
      if ck.ResponseTimeThreshold ≠ 0 then some (Itoa ck.ResponseTimeThreshold) else none := by
  unfold HttpCheck.PutParamsFields
  simp [GoMap.get_ite, GoMap.get_set, GoMap.get_setWhen, GoMap.get_setSome, GoMap.get_cons,
    GoMap.get_nil]

theorem HttpCheck.get_PutParamsFields_verify_certificate (ck : HttpCheck) :
    ck.PutParamsFields.get "verify_certificate" = ck.VerifyCertificate.map FormatBool := by
  unfold HttpCheck.PutParamsFields
  cases ck.VerifyCertificate <;>
  simp [GoMap.get_ite, GoMap.get_set, GoMap.get_setWhen, GoMap.get_setSome, GoMap.get_cons,
    GoMap.get_nil]

theorem HttpCheck.get_PutParamsFields_ssl_down_days_before (ck : HttpCheck) :
    ck.PutParamsFields.get "ssl_down_days_before" = ck.SSLDownDaysBefore.map Itoa := by
  unfold HttpCheck.PutParamsFields
  cases ck.SSLDownDaysBefore <;>
  simp [GoMap.get_ite, GoMap.get_set, GoMap.get_setWhen, GoMap.get_setSome, GoMap.get_cons,
    GoMap.get_nil]

/-- No scalar field of an HTTP update encoding sits under a key that starts
with `req`. -/
theorem HttpCheck.get_PutParamsFields_req (ck : HttpCheck) {k : String}
    (hk : k.data.take 3 = ['r', 'e', 'q']) :
    ck.PutParamsFields.get k = none := by
  have hne : ∀ L : String,
      L.data.take 3 ≠ ['r', 'e', 'q'] → (L = k) = False := by
    intro L hL
    simp only [eq_iff_iff, iff_false]
    rintro rfl
    exact hL hk
  unfold HttpCheck.PutParamsFields
  simp +decide [GoMap.get_ite, GoMap.get_set, GoMap.get_setWhen, GoMap.get_setSome,
    GoMap.get_cons, GoMap.get_nil, hne]

/-- Reading a create encoding at a key other than the discriminant. -/
theorem get_post_of_ne_type {m : GoMap} (hwf : m.WF) (t : String) {k : String}
    (hk : k ≠ "type") (v : String) :
    ((dropEmpty m).set "type" t).get k = some v ↔ m.get k = some v ∧ v ≠ "" := by
  rw [get_set_type_dropEmpty hwf]
  simp [hk]

/-- A create encoding with a non-empty discriminant holds no empty value. -/
theorem get_post_ne_empty {m : GoMap} (hwf : m.WF) {t : String} (ht : t ≠ "") (k : String) :
    ((dropEmpty m).set "type" t).get k ≠ some "" := by
  intro h
  rcases (get_set_type_dropEmpty hwf t k "").mp h with ⟨_, h2⟩ | ⟨_, _, h3⟩
  · exact ht h2.symm
  · exact h3 rfl

/-! ## The create encoding against the update encoding -/

/-- C1: for every check of each of the four variants and every key other than
`"type"`, the create encoding `PostParams` maps the key to a value exactly when
the update encoding `PutParams` maps it to that value and the value is not the
empty string; `PutParams` never holds the key `"type"`, and `PostParams` always
does. -/
theorem post_params_is_put_params_without_empty_values
    (h : HttpCheck) (p : PingCheck) (t : TCPCheck) (d : DNSCheck) (k v : String)
    (hk : k ≠ "type") :
    (h.PostParams.get k = some v ↔ h.PutParams.get k = some v ∧ v ≠ "") ∧
    (p.PostParams.get k = some v ↔ p.PutParams.get k = some v ∧ v ≠ "") ∧
    (t.PostParams.get k = some v ↔ t.PutParams.get k = some v ∧ v ≠ "") ∧
    (d.PostParams.get k = some v ↔ d.PutParams.get k = some v ∧ v ≠ "") ∧
    (h.PutParams.get "type" = none ∧ p.PutParams.get "type" = none ∧
      t.PutParams.get "type" = none ∧ d.PutParams.get "type" = none) ∧
    (h.PostParams.Contains "type" ∧ p.PostParams.Contains "type" ∧
      t.PostParams.Contains "type" ∧ d.PostParams.Contains "type") := by
  refine ⟨get_post_of_ne_type h.wf_http_put _ hk v, get_post_of_ne_type p.wf_ping_put _ hk v,
    get_post_of_ne_type t.wf_tcp_put _ hk v, get_post_of_ne_type d.wf_dns_put _ hk v,
    ⟨h.http_put_no_type, p.ping_put_no_type, t.tcp_put_no_type, d.dns_put_no_type⟩,
    ?_, ?_, ?_, ?_⟩ <;>
  simp [GoMap.Contains, HttpCheck.PostParams, PingCheck.PostParams, TCPCheck.PostParams,
    DNSCheck.PostParams, GoMap.get_set]

/-- C1 at the sample checks and the key `"name"`. -/
theorem post_params_is_put_params_without_empty_values_witness :
    "name" ≠ "type" ∧
    ((sampleHttp.PostParams.get "name" = some "web" ↔
        sampleHttp.PutParams.get "name" = some "web" ∧ "web" ≠ "") ∧
    (samplePing.PostParams.get "name" = some "web" ↔
        samplePing.PutParams.get "name" = some "web" ∧ "web" ≠ "") ∧
    (sampleTcp.PostParams.get "name" = some "web" ↔
        sampleTcp.PutParams.get "name" = some "web" ∧ "web" ≠ "") ∧
    (sampleDns.PostParams.get "name" = some "web" ↔
        sampleDns.PutParams.get "name" = some "web" ∧ "web" ≠ "") ∧
    (sampleHttp.PutParams.get "type" = none ∧ samplePing.PutParams.get "type" = none ∧
      sampleTcp.PutParams.get "type" = none ∧ sampleDns.PutParams.get "type" = none) ∧
    (sampleHttp.PostParams.Contains "type" ∧ samplePing.PostParams.Contains "type" ∧
      sampleTcp.PostParams.Contains "type" ∧ sampleDns.PostParams.Contains "type")) :=
  ⟨by decide, post_params_is_put_params_without_empty_values sampleHttp samplePing sampleTcp
    sampleDns "name" "web" (by decide)⟩

/-- C2: for every check of each of the four variants, `PostParams` holds no key
whose value is the empty string, and holds the key `"type"` with the value
`"http"`, `"ping"`, `"tcp"` and `"dns"` for an `HttpCheck`, a `PingCheck`, a
`TCPCheck` and a `DNSCheck` respectively. -/
theorem post_params_no_empty_value_and_type
    (h : HttpCheck) (p : PingCheck) (t : TCPCheck) (d : DNSCheck) :
    ((∀ k, h.PostParams.get k ≠ some "") ∧ h.PostParams.get "type" = some "http") ∧
    ((∀ k, p.PostParams.get k ≠ some "") ∧ p.PostParams.get "type" = some "ping") ∧
    ((∀ k, t.PostParams.get k ≠ some "") ∧ t.PostParams.get "type" = some "tcp") ∧
    ((∀ k, d.PostParams.get k ≠ some "") ∧ d.PostParams.get "type" = some "dns") :=
  ⟨⟨get_post_ne_empty h.wf_http_put (by decide), GoMap.get_set_self _ _ _⟩,
    ⟨get_post_ne_empty p.wf_ping_put (by decide), GoMap.get_set_self _ _ _⟩,
    ⟨get_post_ne_empty t.wf_tcp_put (by decide), GoMap.get_set_self _ _ _⟩,
    ⟨get_post_ne_empty d.wf_dns_put (by decide), GoMap.get_set_self _ _ _⟩⟩

/-! ## The HTTP update encoding -/

/-- C3: for every `HttpCheck`, `PutParams` holds exactly one of the keys
`"shouldcontain"` and `"shouldnotcontain"`: when `ShouldContain` is non-empty it
holds `"shouldcontain"` with the value `ShouldContain`, otherwise it holds
`"shouldnotcontain"` with the value `ShouldNotContain`, also when that value is
the empty string. -/
theorem http_put_params_content_match (ck : HttpCheck) :
    ((ck.PutParams.Contains "shouldcontain" ∧ ¬ ck.PutParams.Contains "shouldnotcontain") ∨
      (¬ ck.PutParams.Contains "shouldcontain" ∧ ck.PutParams.Contains "shouldnotcontain")) ∧
    (ck.ShouldContain ≠ "" →
      ck.PutParams.get "shouldcontain" = some ck.ShouldContain ∧
      ck.PutParams.get "shouldnotcontain" = none) ∧
    (ck.ShouldContain = "" →
      ck.PutParams.get "shouldnotcontain" = some ck.ShouldNotContain ∧
      ck.PutParams.get "shouldcontain" = none) := by
  have h1 : ck.PutParams.get "shouldcontain" =
      if ck.ShouldContain ≠ "" then some ck.ShouldContain else none := by
    rw [ck.get_PutParams_of_ne (ne_requestHeaderKey (by decide))]
    exact ck.get_PutParamsFields_shouldcontain
  have h2 : ck.PutParams.get "shouldnotcontain" =
      if ck.ShouldContain ≠ "" then none else some ck.ShouldNotContain := by
    rw [ck.get_PutParams_of_ne (ne_requestHeaderKey (by decide))]
    exact ck.get_PutParamsFields_shouldnotcontain
  unfold GoMap.Contains
  rw [h1, h2]
  by_cases hc : ck.ShouldContain = "" <;> simp [hc]

/-- C4: for every `HttpCheck`, let `names` be the names of its request headers
in strictly ascending lexicographic order and `n` their number. `PutParams` maps
`requestheader<i>` to `name:value` of the `i`-th of them for each `i < n`, holds
no `requestheader<i>` with `i ≥ n`, and holds no other key that starts with
`requestheader`. The headers `Z: 1`, `A: 2` give `requestheader0 = "A:2"` and
`requestheader1 = "Z:1"`. -/
theorem http_put_params_request_headers (ck : HttpCheck) :
    (∃ names : List String,
      (∀ k, k ∈ names ↔ ck.RequestHeaders.Contains k) ∧
      names.Sorted (fun a b => a < b) ∧
      (∀ (i : Nat) (hi : i < names.length), ∃ v : String,
        ck.RequestHeaders.get (names.get ⟨i, hi⟩) = some v ∧
        ck.PutParams.get ("requestheader" ++ Itoa (Int.ofNat i)) =
          some (names.get ⟨i, hi⟩ ++ ":" ++ v)) ∧
      (∀ i : Nat, ck.PutParams.Contains ("requestheader" ++ Itoa (Int.ofNat i)) →
        i < names.length) ∧
      (∀ k : String, ck.PutParams.Contains k → "requestheader".data <+: k.data →
        ∃ i : Nat, i < names.length ∧ k = "requestheader" ++ Itoa (Int.ofNat i))) ∧
    (sampleHttp.RequestHeaders = [("Z", "1"), ("A", "2")] ∧
      sampleHttp.PutParams.get "requestheader0" = some "A:2" ∧
      sampleHttp.PutParams.get "requestheader1" = some "Z:1" ∧
      sampleHttp.PutParams.get "requestheader2" = none) := by
  refine ⟨⟨sortStrings ck.RequestHeaders.keys, ?_, ?_, ?_, ?_, ?_⟩, rfl, by decide, by decide,
    by decide⟩
  · intro k
    rw [(sortStrings_perm _).mem_iff, GoMap.mem_keys]
  · exact sortStrings_sorted_lt (GoMap.nodup_keys _)
  · intro i hi
    have h := get_headerLoop_at ck.RequestHeaders (sortStrings ck.RequestHeaders.keys) 0
      ck.PutParamsFields i hi
    rw [Nat.zero_add] at h
    have hmem : (sortStrings ck.RequestHeaders.keys).get ⟨i, hi⟩ ∈ ck.RequestHeaders.keys :=
      (sortStrings_perm _).mem_iff.mp (List.get_mem _ _ _)
    obtain ⟨v, hv⟩ := Option.ne_none_iff_exists.mp ((GoMap.mem_keys _ _).mp hmem)
    refine ⟨v, hv.symm, ?_⟩
    rw [GoMap.index, ← hv] at h
    exact h
  · intro i hc
    by_contra hlt
    apply hc
    have hne : ∀ j, j < (sortStrings ck.RequestHeaders.keys).length →
        requestHeaderKey (0 + j) ≠ requestHeaderKey i := by
      intro j hj he
      have := requestHeaderKey_injective he
      omega
    show (headerLoop _ _ _ _).get (requestHeaderKey i) = none
    rw [get_headerLoop_of_ne _ _ _ _ _ hne]
    exact ck.get_PutParamsFields_req (requestHeaderKey_take i)
  · intro k hc hpre
    by_contra hex
    apply hc
    have hne : ∀ j, j < (sortStrings ck.RequestHeaders.keys).length →
        requestHeaderKey (0 + j) ≠ k := by
      intro j hj he
      apply hex
      refine ⟨j, hj, ?_⟩
      rw [← he, Nat.zero_add]
      rfl
    have htake : k.data.take 3 = ['r', 'e', 'q'] := by
      obtain ⟨t, ht⟩ := hpre
      rw [← ht]
      rfl
    show (headerLoop _ _ _ _).get k = none
    rw [get_headerLoop_of_ne _ _ _ _ _ hne]
    exact ck.get_PutParamsFields_req htake

/-! ## The integer-list encoding -/

/-- C5: for every list of integers, `intListToCDString` returns the decimal
renderings of the elements in input order joined by single commas: it has one
comma less than the list has elements (no rendering holds a comma), it neither
starts nor ends with a comma, and the empty list gives the empty string.
`[]` gives `""`, `[7]` gives `"7"`, `[3,1,2]` gives `"3,1,2"`. -/
theorem int_list_to_cd_string_joins_decimals (integers : List Int) :
    intListToCDString integers = commaJoinedDecimals integers ∧
    (∀ x ∈ integers, ',' ∉ (Itoa x).data) ∧
    (intListToCDString integers).data.count ',' = integers.length - 1 ∧
    (intListToCDString integers).data.head? ≠ some ',' ∧
    (intListToCDString integers).data.getLast? ≠ some ',' ∧
    intListToCDString [] = "" ∧
    intListToCDString [7] = "7" ∧
    intListToCDString [3, 1, 2] = "3,1,2" :=
  ⟨intListToCDString_eq integers, fun x _ => Itoa_no_comma x,
    intListToCDString_count_comma integers, intListToCDString_head integers,
    intListToCDString_getLast integers, by decide, by decide, by decide⟩

/-! ## Zero-valued and unset fields -/

theorem zeroOmitted_of_get {m : GoMap} {k : String} {x : Int}
    (h : m.get k = if x ≠ 0 then some (Itoa x) else none) : ZeroOmitted m k x := by
  unfold ZeroOmitted GoMap.Contains
  rw [h]
  by_cases hx : x = 0
  · simp [hx]
  · simp only [ne_eq, hx, not_false_eq_true, if_true]
    exact ⟨by simp, fun v hv => (Option.some.inj hv).symm⟩

/-- C6: for every `HttpCheck`, `PutParams` holds `"resolution"`,
`"sendnotificationwhendown"`, `"port"` and `"responsetime_threshold"` exactly
when the field is non-zero, each with the decimal rendering of its field; the
same holds for `"resolution"` and `"sendnotificationwhendown"` in the Ping, TCP
and DNS variants. An `HttpCheck` with `Resolution`, `Port` and
`SendNotificationWhenDown` all zero yields none of the three keys. -/
theorem put_params_zero_omission
    (h : HttpCheck) (p : PingCheck) (t : TCPCheck) (d : DNSCheck) :
    (ZeroOmitted h.PutParams "resolution" h.Resolution ∧
      ZeroOmitted h.PutParams "sendnotificationwhendown" h.SendNotificationWhenDown ∧
      ZeroOmitted h.PutParams "port" h.Port ∧
      ZeroOmitted h.PutParams "responsetime_threshold" h.ResponseTimeThreshold) ∧
    (ZeroOmitted p.PutParams "resolution" p.Resolution ∧
      ZeroOmitted p.PutParams "sendnotificationwhendown" p.SendNotificationWhenDown) ∧
    (ZeroOmitted t.PutParams "resolution" t.Resolution ∧
      ZeroOmitted t.PutParams "sendnotificationwhendown" t.SendNotificationWhenDown) ∧
    (ZeroOmitted d.PutParams "resolution" d.Resolution ∧
      ZeroOmitted d.PutParams "sendnotificationwhendown" d.SendNotificationWhenDown) ∧
    (h.Resolution = 0 ∧ h.Port = 0 ∧ h.SendNotificationWhenDown = 0 →
      ¬ h.PutParams.Contains "resolution" ∧ ¬ h.PutParams.Contains "port" ∧
      ¬ h.PutParams.Contains "sendnotificationwhendown") := by
  have h1 : ZeroOmitted h.PutParams "resolution" h.Resolution := by
    apply zeroOmitted_of_get
    rw [h.get_PutParams_of_ne (ne_requestHeaderKey (by decide))]
    exact h.get_PutParamsFields_resolution
  have h2 : ZeroOmitted h.PutParams "sendnotificationwhendown" h.SendNotificationWhenDown := by
    apply zeroOmitted_of_get
    rw [h.get_PutParams_of_ne (ne_requestHeaderKey (by decide))]
    exact h.get_PutParamsFields_sendnotificationwhendown
  have h3 : ZeroOmitted h.PutParams "port" h.Port := by
    apply zeroOmitted_of_get
    rw [h.get_PutParams_of_ne (ne_requestHeaderKey (by decide))]
    exact h.get_PutParamsFields_port
  have h4 : ZeroOmitted h.PutParams "responsetime_threshold" h.ResponseTimeThreshold := by
    apply zeroOmitted_of_get
    rw [h.get_PutParams_of_ne (ne_requestHeaderKey (by decide))]
    exact h.get_PutParamsFields_responsetime_threshold
  refine ⟨⟨h1, h2, h3, h4⟩, ⟨?_, ?_⟩, ⟨?_, ?_⟩, ⟨?_, ?_⟩, ?_⟩
  · apply zeroOmitted_of_get
    unfold PingCheck.PutParams
    simp [GoMap.get_setWhen, GoMap.get_cons, GoMap.get_nil]
  · apply zeroOmitted_of_get
    unfold PingCheck.PutParams
    simp [GoMap.get_setWhen, GoMap.get_cons, GoMap.get_nil]
  · apply zeroOmitted_of_get
    unfold TCPCheck.PutParams
    simp [GoMap.get_setWhen, GoMap.get_cons, GoMap.get_nil]
  · apply zeroOmitted_of_get
    unfold TCPCheck.PutParams
    simp [GoMap.get_setWhen, GoMap.get_cons, GoMap.get_nil]
  · apply zeroOmitted_of_get
    unfold DNSCheck.PutParams
    simp [GoMap.get_setWhen, GoMap.get_cons, GoMap.get_nil]
  · apply zeroOmitted_of_get
    unfold DNSCheck.PutParams
    simp [GoMap.get_setWhen, GoMap.get_cons, GoMap.get_nil]
  · rintro ⟨hr, hp, hs⟩
    exact ⟨fun hc => h1.1.mp hc hr, fun hc => h3.1.mp hc hp, fun hc => h2.1.mp hc hs⟩

/-- Reading a create encoding where the update encoding holds no empty value. -/
theorem get_post_of_nonempty {m : GoMap} (hwf : m.WF) (t : String) {k : String}
    (hk : k ≠ "type") (hne : m.get k ≠ some "") :
    ((dropEmpty m).set "type" t).get k = m.get k := by
  rw [GoMap.get_set_of_ne _ _ (fun h => hk h.symm), get_dropEmpty hwf, if_neg hne]

/-- C7: for every `HttpCheck`, `PutParams` holds `"verify_certificate"` exactly
when `VerifyCertificate` is set, with `"true"` or `"false"` after the pointed-to
boolean, and `"ssl_down_days_before"` exactly when `SSLDownDaysBefore` is set,
with the decimal rendering of the pointed-to integer; `PostParams` holds the same
two entries. A set `false` or `0` is emitted as `"false"` or `"0"`, an unset
field as no key at all. -/
theorem http_params_tri_state (ck : HttpCheck) :
    ck.PutParams.get "verify_certificate" = ck.VerifyCertificate.map FormatBool ∧
    ck.PutParams.get "ssl_down_days_before" = ck.SSLDownDaysBefore.map Itoa ∧
    ck.PostParams.get "verify_certificate" = ck.VerifyCertificate.map FormatBool ∧
    ck.PostParams.get "ssl_down_days_before" = ck.SSLDownDaysBefore.map Itoa ∧
    (ck.PutParams.Contains "verify_certificate" ↔ ck.VerifyCertificate ≠ none) ∧
    (ck.PutParams.Contains "ssl_down_days_before" ↔ ck.SSLDownDaysBefore ≠ none) ∧
    (ck.PostParams.Contains "verify_certificate" ↔ ck.VerifyCertificate ≠ none) ∧
    (ck.PostParams.Contains "ssl_down_days_before" ↔ ck.SSLDownDaysBefore ≠ none) ∧
    (FormatBool true = "true" ∧ FormatBool false = "false" ∧ Itoa 0 = "0") ∧
    (ck.VerifyCertificate = some false →
      ck.PutParams.get "verify_certificate" = some "false" ∧
      ck.PostParams.get "verify_certificate" = some "false") ∧
    (ck.SSLDownDaysBefore = some 0 →
      ck.PutParams.get "ssl_down_days_before" = some "0" ∧
      ck.PostParams.get "ssl_down_days_before" = some "0") ∧
    (ck.VerifyCertificate = none →
      ck.PutParams.get "verify_certificate" = none ∧
      ck.PostParams.get "verify_certificate" = none) ∧
    (ck.SSLDownDaysBefore = none →
      ck.PutParams.get "ssl_down_days_before" = none ∧
      ck.PostParams.get "ssl_down_days_before" = none) := by
  have h1 : ck.PutParams.get "verify_certificate" = ck.VerifyCertificate.map FormatBool := by
    rw [ck.get_PutParams_of_ne (ne_requestHeaderKey (by decide))]
    exact ck.get_PutParamsFields_verify_certificate
  have h2 : ck.PutParams.get "ssl_down_days_before" = ck.SSLDownDaysBefore.map Itoa := by
    rw [ck.get_PutParams_of_ne (ne_requestHeaderKey (by decide))]
    exact ck.get_PutParamsFields_ssl_down_days_before
  have h3 : ck.PostParams.get "verify_certificate" = ck.VerifyCertificate.map FormatBool := by
    rw [← h1]
    apply get_post_of_nonempty ck.wf_http_put _ (by decide)
    rw [h1]
    cases ck.VerifyCertificate with
    | none => simp
    | some b => simpa using (FormatBool_ne_empty b)
  have h4 : ck.PostParams.get "ssl_down_days_before" = ck.SSLDownDaysBefore.map Itoa := by
    rw [← h2]
    apply get_post_of_nonempty ck.wf_http_put _ (by decide)
    rw [h2]
    cases ck.SSLDownDaysBefore with
    | none => simp
    | some x => simpa using (Itoa_ne_empty x)
  refine ⟨h1, h2, h3, h4, ?_, ?_, ?_, ?_, ⟨rfl, rfl, rfl⟩, ?_, ?_, ?_, ?_⟩
  · unfold GoMap.Contains; rw [h1]; cases ck.VerifyCertificate <;> simp
  · unfold GoMap.Contains; rw [h2]; cases ck.SSLDownDaysBefore <;> simp
  · unfold GoMap.Contains; rw [h3]; cases ck.VerifyCertificate <;> simp
  · unfold GoMap.Contains; rw [h4]; cases ck.SSLDownDaysBefore <;> simp
  · intro hv; rw [h1, h3, hv]; exact ⟨rfl, rfl⟩
  · intro hv; rw [h2, h4, hv]; exact ⟨rfl, rfl⟩
  · intro hv; rw [h1, h3, hv]; exact ⟨rfl, rfl⟩
  · intro hv; rw [h2, h4, hv]; exact ⟨rfl, rfl⟩

/-! ## Validation -/

theorem validCommonParameters_eq_none_iff (name hostname : String) (resolution : Int) :
    validCommonParameters name hostname resolution = none ↔
      name ≠ "" ∧ hostname ≠ "" ∧ resolution ∈ ([0, 1, 5, 15, 30, 60] : List Int) := by
  unfold validCommonParameters
  by_cases hn : name = ""
  · simp [hn]
  · by_cases hh : hostname = ""
    · simp [hn, hh]
    · by_cases hr : resolution ≠ 0 ∧ resolution ≠ 1 ∧ resolution ≠ 5 ∧ resolution ≠ 15 ∧
          resolution ≠ 30 ∧ resolution ≠ 60
      · rw [if_neg hn, if_neg hh, if_pos hr]
        simp only [reduceCtorEq, false_iff, not_and]
        intro _ _ hmem
        simp only [List.mem_cons, List.mem_singleton, List.not_mem_nil, or_false] at hmem
        omega
      · rw [if_neg hn, if_neg hh, if_neg hr]
        simp only [true_iff]
        refine ⟨hn, hh, ?_⟩
        simp only [List.mem_cons, List.mem_singleton, List.not_mem_nil, or_false]
        omega

theorem HttpCheck.http_valid_eq_none_iff (ck : HttpCheck) :
    ck.Valid = none ↔
      validCommonParameters ck.Name ck.Hostname ck.Resolution = none ∧
      ¬ (ck.ShouldContain ≠ "" ∧ ck.ShouldNotContain ≠ "") := by
  unfold HttpCheck.Valid
  cases hc : validCommonParameters ck.Name ck.Hostname ck.Resolution with
  | some err => simp
  | none =>
    by_cases hb : ck.ShouldContain ≠ "" ∧ ck.ShouldNotContain ≠ ""
    · simp only [if_pos hb, reduceCtorEq, true_and, false_iff, not_not]
      exact hb
    · simp only [if_neg hb, true_and, true_iff]
      exact hb

theorem PingCheck.ping_valid_eq_none_iff (ck : PingCheck) :
    ck.Valid = none ↔ validCommonParameters ck.Name ck.Hostname ck.Resolution = none := by
  unfold PingCheck.Valid
  cases hc : validCommonParameters ck.Name ck.Hostname ck.Resolution <;> simp

theorem TCPCheck.tcp_valid_eq_none_iff (ck : TCPCheck) :
    ck.Valid = none ↔
      validCommonParameters ck.Name ck.Hostname ck.Resolution = none ∧
      1 ≤ ck.Port ∧ ck.Port ≤ 65535 := by
  unfold TCPCheck.Valid
  cases hc : validCommonParameters ck.Name ck.Hostname ck.Resolution with
  | some err => simp
  | none =>
    by_cases hp : ck.Port < 1 ∨ ck.Port > 65535
    · simp only [if_pos hp, reduceCtorEq, true_and, false_iff]
      omega
    · simp only [if_neg hp, true_and, true_iff]
      omega

theorem DNSCheck.dns_valid_eq_none_iff (ck : DNSCheck) :
    ck.Valid = none ↔
      validCommonParameters ck.Name ck.Hostname ck.Resolution = none ∧
      ck.ExpectedIP ≠ "" ∧ ck.NameServer ≠ "" := by
  unfold DNSCheck.Valid
  cases hc : validCommonParameters ck.Name ck.Hostname ck.Resolution with
  | some err => simp
  | none =>
    by_cases he : ck.ExpectedIP = ""
    · simp [he]
    · by_cases hs : ck.NameServer = ""
      · simp [he, hs]
      · simp [he, hs]

/-- C8: for each of the four variants, `Valid` returns a failure whenever `Name`
is empty, `Hostname` is empty, or `Resolution` is not one of 0, 1, 5, 15, 30, 60;
`validCommonParameters` succeeds exactly when `Name` and `Hostname` are non-empty
and `Resolution` is one of 0, 1, 5, 15, 30, 60; and `PingCheck.Valid` succeeds
exactly when `validCommonParameters` does. -/
theorem valid_common_parameters
    (h : HttpCheck) (p : PingCheck) (t : TCPCheck) (d : DNSCheck)
    (name hostname : String) (resolution : Int) :
    (validCommonParameters name hostname resolution = none ↔
      name ≠ "" ∧ hostname ≠ "" ∧ resolution ∈ ([0, 1, 5, 15, 30, 60] : List Int)) ∧
    (p.Valid = none ↔ validCommonParameters p.Name p.Hostname p.Resolution = none) ∧
    (h.Name = "" ∨ h.Hostname = "" ∨ h.Resolution ∉ ([0, 1, 5, 15, 30, 60] : List Int) →
      h.Valid ≠ none) ∧
    (p.Name = "" ∨ p.Hostname = "" ∨ p.Resolution ∉ ([0, 1, 5, 15, 30, 60] : List Int) →
      p.Valid ≠ none) ∧
    (t.Name = "" ∨ t.Hostname = "" ∨ t.Resolution ∉ ([0, 1, 5, 15, 30, 60] : List Int) →
      t.Valid ≠ none) ∧
    (d.Name = "" ∨ d.Hostname = "" ∨ d.Resolution ∉ ([0, 1, 5, 15, 30, 60] : List Int) →
      d.Valid ≠ none) := by
  have key : ∀ (n hn : String) (r : Int),
      (n = "" ∨ hn = "" ∨ r ∉ ([0, 1, 5, 15, 30, 60] : List Int)) →
      validCommonParameters n hn r ≠ none := by
    intro n hn r hbad hv
    obtain ⟨h1, h2, h3⟩ := (validCommonParameters_eq_none_iff n hn r).mp hv
    rcases hbad with hb | hb | hb
    · exact h1 hb
    · exact h2 hb
    · exact hb h3
  refine ⟨validCommonParameters_eq_none_iff _ _ _, p.ping_valid_eq_none_iff, ?_, ?_, ?_, ?_⟩
  · intro hbad hv
    exact key _ _ _ hbad (h.http_valid_eq_none_iff.mp hv).1
  · intro hbad hv
    exact key _ _ _ hbad (p.ping_valid_eq_none_iff.mp hv)
  · intro hbad hv
    exact key _ _ _ hbad (t.tcp_valid_eq_none_iff.mp hv).1
  · intro hbad hv
    exact key _ _ _ hbad (d.dns_valid_eq_none_iff.mp hv).1

/-- C9: for every `HttpCheck`, `Valid` succeeds exactly when `Name` and `Hostname`
are non-empty, `Resolution` is one of 0, 1, 5, 15, 30, 60, and `ShouldContain`
and `ShouldNotContain` are not both non-empty: it fails when both are set, and
with valid common fields it passes when at most one of them is set. -/
theorem http_valid_iff (ck : HttpCheck) :
    (ck.Valid = none ↔
      (ck.Name ≠ "" ∧ ck.Hostname ≠ "" ∧
        ck.Resolution ∈ ([0, 1, 5, 15, 30, 60] : List Int)) ∧
      ¬ (ck.ShouldContain ≠ "" ∧ ck.ShouldNotContain ≠ "")) ∧
    (ck.Valid = none ↔
      validCommonParameters ck.Name ck.Hostname ck.Resolution = none ∧
      ¬ (ck.ShouldContain ≠ "" ∧ ck.ShouldNotContain ≠ "")) ∧
    (ck.ShouldContain ≠ "" ∧ ck.ShouldNotContain ≠ "" → ck.Valid ≠ none) ∧
    (validCommonParameters ck.Name ck.Hostname ck.Resolution = none →
      ck.ShouldContain = "" ∨ ck.ShouldNotContain = "" → ck.Valid = none) := by
  refine ⟨?_, ck.http_valid_eq_none_iff, ?_, ?_⟩
  · rw [ck.http_valid_eq_none_iff, validCommonParameters_eq_none_iff]
  · intro hb hv
    exact (ck.http_valid_eq_none_iff.mp hv).2 hb
  · intro hc hone
    refine ck.http_valid_eq_none_iff.mpr ⟨hc, ?_⟩
    rintro ⟨h1, h2⟩
    rcases hone with h | h
    · exact h1 h
    · exact h2 h

/-- C10: for every `TCPCheck`, `Valid` succeeds exactly when `Name` and `Hostname`
are non-empty, `Resolution` is one of 0, 1, 5, 15, 30, 60, and
`1 ≤ Port ≤ 65535`; it fails for every `Port` outside that range, zero and the
negative ports included. -/
theorem tcp_valid_iff (ck : TCPCheck) :
    (ck.Valid = none ↔
      (ck.Name ≠ "" ∧ ck.Hostname ≠ "" ∧
        ck.Resolution ∈ ([0, 1, 5, 15, 30, 60] : List Int)) ∧
      1 ≤ ck.Port ∧ ck.Port ≤ 65535) ∧
    (ck.Valid = none ↔
      validCommonParameters ck.Name ck.Hostname ck.Resolution = none ∧
      1 ≤ ck.Port ∧ ck.Port ≤ 65535) ∧
    (ck.Port < 1 ∨ 65535 < ck.Port → ck.Valid ≠ none) ∧
    (ck.Port = 0 → ck.Valid ≠ none) ∧
    (ck.Port < 0 → ck.Valid ≠ none) := by
  have hout : ck.Port < 1 ∨ 65535 < ck.Port → ck.Valid ≠ none := by
    intro hp hv
    have := (ck.tcp_valid_eq_none_iff.mp hv).2
    omega
  refine ⟨?_, ck.tcp_valid_eq_none_iff, hout, ?_, ?_⟩
  · rw [ck.tcp_valid_eq_none_iff, validCommonParameters_eq_none_iff]
  · intro hp
    exact hout (Or.inl (by omega))
  · intro hp
    exact hout (Or.inl (by omega))

/-- C11: for every `DNSCheck`, `Valid` succeeds exactly when `Name` and `Hostname`
are non-empty, `Resolution` is one of 0, 1, 5, 15, 30, 60, and both `ExpectedIP`
and `NameServer` are non-empty; it fails whenever `ExpectedIP` is empty or
`NameServer` is empty. -/
theorem dns_valid_iff (ck : DNSCheck) :
    (ck.Valid = none ↔
      (ck.Name ≠ "" ∧ ck.Hostname ≠ "" ∧
        ck.Resolution ∈ ([0, 1, 5, 15, 30, 60] : List Int)) ∧
      ck.ExpectedIP ≠ "" ∧ ck.NameServer ≠ "") ∧
    (ck.Valid = none ↔
      validCommonParameters ck.Name ck.Hostname ck.Resolution = none ∧
      ck.ExpectedIP ≠ "" ∧ ck.NameServer ≠ "") ∧
    (ck.ExpectedIP = "" ∨ ck.NameServer = "" → ck.Valid ≠ none) := by
  refine ⟨?_, ck.dns_valid_eq_none_iff, ?_⟩
  · rw [ck.dns_valid_eq_none_iff, validCommonParameters_eq_none_iff]
  · intro hbad hv
    obtain ⟨_, h1, h2⟩ := ck.dns_valid_eq_none_iff.mp hv
    rcases hbad with h | h
    · exact h1 h
    · exact h2 h

/-! ## Summary performance requests -/

/-- C12: for every `SummaryPerformanceRequest`, `Valid` returns `ErrMissingId`
exactly when `Id` is 0, whatever `Resolution` holds, returns `ErrBadResolution`
exactly when `Id` is non-zero and `Resolution` is none of `""`, `"hour"`, `"day"`,
`"week"`, and succeeds otherwise; the two error values are distinct. A request
with `Id = 0` gives `ErrMissingId`; one with a non-zero `Id` and the resolution
`"month"` gives `ErrBadResolution`. -/
theorem summary_performance_request_valid (csr : SummaryPerformanceRequest) :
    (csr.Valid = some ErrMissingId ↔ csr.Id = 0) ∧
    (csr.Valid = some ErrBadResolution ↔
      csr.Id ≠ 0 ∧ csr.Resolution ∉ (["", "hour", "day", "week"] : List String)) ∧
    (csr.Valid = none ↔
      csr.Id ≠ 0 ∧ csr.Resolution ∈ (["", "hour", "day", "week"] : List String)) ∧
    ErrMissingId ≠ ErrBadResolution ∧
    (sampleSummaryNoId.Id = 0 ∧ sampleSummaryNoId.Valid = some ErrMissingId) ∧
    (sampleSummaryMonth.Id ≠ 0 ∧ sampleSummaryMonth.Resolution = "month" ∧
      sampleSummaryMonth.Valid = some ErrBadResolution) := by
  have hne : ErrMissingId ≠ ErrBadResolution := by decide
  refine ⟨?_, ?_, ?_, hne, ⟨rfl, by decide⟩, ⟨by decide, rfl, by decide⟩⟩
  · unfold SummaryPerformanceRequest.Valid
    by_cases hid : csr.Id = 0
    · simp [hid]
    · rw [if_neg hid]
      split_ifs
      · simp [hid, hne.symm]
      · simp [hid]
  · unfold SummaryPerformanceRequest.Valid
    by_cases hid : csr.Id = 0
    · simp [hid, hne]
    · rw [if_neg hid]
      split_ifs with hr
      · simp only [true_iff]
        refine ⟨hid, ?_⟩
        simp only [List.mem_cons, List.mem_singleton, List.not_mem_nil, or_false, not_or]
        exact hr
      · simp only [reduceCtorEq, false_iff, not_and, not_not]
        intro _
        simp only [List.mem_cons, List.mem_singleton, List.not_mem_nil, or_false]
        by_contra hcon
        exact hr (by simpa [not_or] using hcon)
  · unfold SummaryPerformanceRequest.Valid
    by_cases hid : csr.Id = 0
    · simp [hid]
    · rw [if_neg hid]
      split_ifs with hr
      · simp only [reduceCtorEq, false_iff, not_and]
        intro _
        simp only [List.mem_cons, List.mem_singleton, List.not_mem_nil, or_false, not_or]
        exact hr
      · simp only [true_iff]
        refine ⟨hid, ?_⟩
        simp only [List.mem_cons, List.mem_singleton, List.not_mem_nil, or_false]
        by_contra hcon
        exact hr (by simpa [not_or] using hcon)

theorem get_GetParams (csr : SummaryPerformanceRequest) (k : String) :
    csr.GetParams.get k =
      if csr.IncludeUptime = true ∧ "includeuptime" = k then some "true"
      else if csr.Resolution ≠ "" ∧ "resolution" = k then some csr.Resolution
      else none := by
  unfold SummaryPerformanceRequest.GetParams
  simp only [GoMap.get_setWhen, GoMap.get_nil]

/-- C13: for every `SummaryPerformanceRequest`, `GetParams` holds no key other
than `"resolution"` and `"includeuptime"`; it holds `"resolution"` exactly when
`Resolution` is non-empty, with the value `Resolution`, and `"includeuptime"`
exactly when `IncludeUptime` is true, with the value `"true"` and never
`"false"`. Two requests that agree on `Resolution` and `IncludeUptime` yield
equal maps, whatever their `Id`, `From`, `To`, `Probes` and `Order`. -/
theorem summary_performance_request_get_params (a b : SummaryPerformanceRequest) :
    (∀ k, a.GetParams.Contains k → k = "resolution" ∨ k = "includeuptime") ∧
    (a.GetParams.Contains "resolution" ↔ a.Resolution ≠ "") ∧
    (∀ v, a.GetParams.get "resolution" = some v → v = a.Resolution) ∧
    (a.GetParams.Contains "includeuptime" ↔ a.IncludeUptime = true) ∧
    (∀ v, a.GetParams.get "includeuptime" = some v → v = "true") ∧
    a.GetParams.get "includeuptime" ≠ some "false" ∧
    (a.Resolution = b.Resolution → a.IncludeUptime = b.IncludeUptime →
      a.GetParams = b.GetParams) := by
  have hres : a.GetParams.get "resolution" =
      if a.Resolution ≠ "" then some a.Resolution else none := by
    rw [get_GetParams]
    simp
  have hinc : a.GetParams.get "includeuptime" =
      if a.IncludeUptime = true then some "true" else none := by
    rw [get_GetParams]
    simp
  refine ⟨?_, ?_, ?_, ?_, ?_, ?_, ?_⟩
  · intro k hk
    unfold GoMap.Contains at hk
    rw [get_GetParams] at hk
    by_cases h1 : "includeuptime" = k
    · exact Or.inr h1.symm
    · by_cases h2 : "resolution" = k
      · exact Or.inl h2.symm
      · simp [h1, h2] at hk
  · unfold GoMap.Contains
    rw [hres]
    by_cases h : a.Resolution = "" <;> simp [h]
  · intro v hv
    rw [hres] at hv
    by_cases h : a.Resolution = ""
    · simp [h] at hv
    · simpa [h, eq_comm] using hv
  · unfold GoMap.Contains
    rw [hinc]
    by_cases h : a.IncludeUptime = true <;> simp [h]
  · intro v hv
    rw [hinc] at hv
    by_cases h : a.IncludeUptime = true
    · simpa [h, eq_comm] using hv
    · simp [h] at hv
  · rw [hinc]
    by_cases h : a.IncludeUptime = true <;> simp [h]
  · intro hr hi
    unfold SummaryPerformanceRequest.GetParams
    rw [hr, hi]

/-! ## Reading the fixed entries of the update encodings -/

theorem HttpCheck.get_http_fixed (ck : HttpCheck) :
    ck.PutParams.get "paused" = some (FormatBool ck.Paused) ∧
    ck.PutParams.get "notifyagainevery" = some (Itoa ck.NotifyAgainEvery) ∧
    ck.PutParams.get "notifywhenbackup" = some (FormatBool ck.NotifyWhenBackup) ∧
    ck.PutParams.get "integrationids" = some (intListToCDString ck.IntegrationIds) ∧
    ck.PutParams.get "userids" = some (intListToCDString ck.UserIds) ∧
    ck.PutParams.get "teamids" = some (intListToCDString ck.TeamIds) ∧
    ck.PutParams.get "tags" = some ck.Tags ∧
    ck.PutParams.get "auth" =
      if ck.Username ≠ "" then some (ck.Username ++ ":" ++ ck.Password) else none := by
  refine ⟨?_, ?_, ?_, ?_, ?_, ?_, ?_, ?_⟩ <;>
  · rw [ck.get_PutParams_of_ne (ne_requestHeaderKey (by decide))]
    unfold HttpCheck.PutParamsFields
    simp [GoMap.get_ite, GoMap.get_set, GoMap.get_setWhen, GoMap.get_setSome, GoMap.get_cons,
      GoMap.get_nil]

theorem PingCheck.get_ping_fixed (ck : PingCheck) :
    ck.PutParams.get "paused" = some (FormatBool ck.Paused) ∧
    ck.PutParams.get "notifyagainevery" = some (Itoa ck.NotifyAgainEvery) ∧
    ck.PutParams.get "notifywhenbackup" = some (FormatBool ck.NotifyWhenBackup) ∧
    ck.PutParams.get "integrationids" = some (intListToCDString ck.IntegrationIds) ∧
    ck.PutParams.get "userids" = some (intListToCDString ck.UserIds) ∧
    ck.PutParams.get "teamids" = some (intListToCDString ck.TeamIds) ∧
    ck.PutParams.get "tags" = none := by
  refine ⟨?_, ?_, ?_, ?_, ?_, ?_, ?_⟩ <;>
  · unfold PingCheck.PutParams
    simp [GoMap.get_setWhen, GoMap.get_cons, GoMap.get_nil]

theorem TCPCheck.get_tcp_fixed (ck : TCPCheck) :
    ck.PutParams.get "paused" = some (FormatBool ck.Paused) ∧
    ck.PutParams.get "notifyagainevery" = some (Itoa ck.NotifyAgainEvery) ∧
    ck.PutParams.get "notifywhenbackup" = some (FormatBool ck.NotifyWhenBackup) ∧
    ck.PutParams.get "integrationids" = some (intListToCDString ck.IntegrationIds) ∧
    ck.PutParams.get "userids" = some (intListToCDString ck.UserIds) ∧
    ck.PutParams.get "teamids" = some (intListToCDString ck.TeamIds) ∧
    ck.PutParams.get "tags" = some ck.Tags ∧
    ck.PutParams.get "port" = some (Itoa ck.Port) := by
  refine ⟨?_, ?_, ?_, ?_, ?_, ?_, ?_, ?_⟩ <;>
  · unfold TCPCheck.PutParams
    simp [GoMap.get_setWhen, GoMap.get_cons, GoMap.get_nil]

theorem DNSCheck.get_dns_fixed (ck : DNSCheck) :
    ck.PutParams.get "paused" = some (FormatBool ck.Paused) ∧
    ck.PutParams.get "notifyagainevery" = some (Itoa ck.NotifyAgainEvery) ∧
    ck.PutParams.get "notifywhenbackup" = some (FormatBool ck.NotifyWhenBackup) ∧
    ck.PutParams.get "integrationids" = some (intListToCDString ck.IntegrationIds) ∧
    ck.PutParams.get "userids" = some (intListToCDString ck.UserIds) ∧
    ck.PutParams.get "teamids" = some (intListToCDString ck.TeamIds) ∧
    ck.PutParams.get "tags" = some ck.Tags := by
  refine ⟨?_, ?_, ?_, ?_, ?_, ?_, ?_⟩ <;>
  · unfold DNSCheck.PutParams
    simp [GoMap.get_setWhen, GoMap.get_cons, GoMap.get_nil]

/-- A create encoding keeps an entry of the update encoding whose value is not
empty. -/
theorem get_post_of_get {m : GoMap} (hwf : m.WF) (t : String) {k v : String}
    (hk : k ≠ "type") (hv : v ≠ "") (h : m.get k = some v) :
    ((dropEmpty m).set "type" t).get k = some v :=
  (get_post_of_ne_type hwf t hk v).mpr ⟨h, hv⟩

/-- A create encoding drops an entry of the update encoding whose value is
empty. -/
theorem get_post_of_get_empty {m : GoMap} (hwf : m.WF) (t : String) {k : String}
    (hk : k ≠ "type") (h : m.get k = some "") :
    ((dropEmpty m).set "type" t).get k = none := by
  rw [GoMap.get_set_of_ne _ _ (fun hh => hk hh.symm), get_dropEmpty hwf, if_pos h]

theorem intListToCDString_eq_empty_iff (integers : List Int) :
    intListToCDString integers = "" ↔ integers = [] := by
  constructor
  · intro h
    cases integers with
    | nil => rfl
    | cons x rest =>
      have hd := congrArg String.data h
      rw [intListToCDString_data_cons] at hd
      exact absurd (List.append_eq_nil.mp hd).1 (Itoa_data_ne_nil x)
  · rintro rfl
    rfl

theorem listEncodedAt_of_get {m : GoMap} (hwf : m.WF) (t : String) {k : String}
    (hk : k ≠ "type") {ids : List Int} (h : m.get k = some (intListToCDString ids)) :
    ListEncodedAt m ((dropEmpty m).set "type" t) k ids := by
  refine ⟨h, intListToCDString_eq ids, ?_, ?_⟩
  · rintro rfl
    exact ⟨h, get_post_of_get_empty hwf t hk h⟩
  · intro hne
    exact get_post_of_get hwf t hk
      (fun he => hne ((intListToCDString_eq_empty_iff ids).mp he)) h

theorem flagsKept_of_get {m : GoMap} (hwf : m.WF) (t : String) {paused backup : Bool}
    {again : Int} (h1 : m.get "paused" = some (FormatBool paused))
    (h2 : m.get "notifywhenbackup" = some (FormatBool backup))
    (h3 : m.get "notifyagainevery" = some (Itoa again)) :
    FlagsKept ((dropEmpty m).set "type" t) paused backup again := by
  have p1 := get_post_of_get hwf t (by decide) (FormatBool_ne_empty paused) h1
  have p2 := get_post_of_get hwf t (by decide) (FormatBool_ne_empty backup) h2
  have p3 := get_post_of_get hwf t (by decide) (Itoa_ne_empty again) h3
  refine ⟨?_, ?_, p3, ?_⟩
  · rw [p1]; cases paused <;> rfl
  · rw [p2]; cases backup <;> rfl
  · rintro rfl rfl
    exact ⟨p1, p3⟩

/-! ## Fixed entries of the encodings -/

/-- C14: for every `HttpCheck`, `PutParams` holds the key `"auth"` exactly when
`Username` is non-empty, and then with `Username`, a colon and `Password`; with
an empty `Username` there is no `"auth"` key, also when `Password` is
non-empty. -/
theorem http_put_params_auth (ck : HttpCheck) :
    (ck.PutParams.Contains "auth" ↔ ck.Username ≠ "") ∧
    (ck.Username ≠ "" →
      ck.PutParams.get "auth" = some (ck.Username ++ ":" ++ ck.Password)) ∧
    (ck.Username = "" → ck.PutParams.get "auth" = none) ∧
    (ck.Username = "" → ck.Password ≠ "" → ¬ ck.PutParams.Contains "auth") := by
  have h := ck.get_http_fixed.2.2.2.2.2.2.2
  unfold GoMap.Contains
  rw [h]
  by_cases hu : ck.Username = "" <;> simp [hu]

/-- C15: for every check of each of the four variants, `PutParams` holds the keys
`"integrationids"`, `"userids"` and `"teamids"` with the comma-joined decimal
encodings of `IntegrationIds`, `UserIds` and `TeamIds`; an empty list gives the
key with the empty string in `PutParams` and no such key in `PostParams`. -/
theorem put_params_id_lists
    (h : HttpCheck) (p : PingCheck) (t : TCPCheck) (d : DNSCheck) :
    (ListEncodedAt h.PutParams h.PostParams "integrationids" h.IntegrationIds ∧
      ListEncodedAt h.PutParams h.PostParams "userids" h.UserIds ∧
      ListEncodedAt h.PutParams h.PostParams "teamids" h.TeamIds) ∧
    (ListEncodedAt p.PutParams p.PostParams "integrationids" p.IntegrationIds ∧
      ListEncodedAt p.PutParams p.PostParams "userids" p.UserIds ∧
      ListEncodedAt p.PutParams p.PostParams "teamids" p.TeamIds) ∧
    (ListEncodedAt t.PutParams t.PostParams "integrationids" t.IntegrationIds ∧
      ListEncodedAt t.PutParams t.PostParams "userids" t.UserIds ∧
      ListEncodedAt t.PutParams t.PostParams "teamids" t.TeamIds) ∧
    (ListEncodedAt d.PutParams d.PostParams "integrationids" d.IntegrationIds ∧
      ListEncodedAt d.PutParams d.PostParams "userids" d.UserIds ∧
      ListEncodedAt d.PutParams d.PostParams "teamids" d.TeamIds) := by
  obtain ⟨_, _, _, h4, h5, h6, _⟩ := h.get_http_fixed
  obtain ⟨_, _, _, p4, p5, p6, _⟩ := p.get_ping_fixed
  obtain ⟨_, _, _, t4, t5, t6, _⟩ := t.get_tcp_fixed
  obtain ⟨_, _, _, d4, d5, d6, _⟩ := d.get_dns_fixed
  exact ⟨⟨listEncodedAt_of_get h.wf_http_put _ (by decide) h4,
      listEncodedAt_of_get h.wf_http_put _ (by decide) h5,
      listEncodedAt_of_get h.wf_http_put _ (by decide) h6⟩,
    ⟨listEncodedAt_of_get p.wf_ping_put _ (by decide) p4,
      listEncodedAt_of_get p.wf_ping_put _ (by decide) p5,
      listEncodedAt_of_get p.wf_ping_put _ (by decide) p6⟩,
    ⟨listEncodedAt_of_get t.wf_tcp_put _ (by decide) t4,
      listEncodedAt_of_get t.wf_tcp_put _ (by decide) t5,
      listEncodedAt_of_get t.wf_tcp_put _ (by decide) t6⟩,
    ⟨listEncodedAt_of_get d.wf_dns_put _ (by decide) d4,
      listEncodedAt_of_get d.wf_dns_put _ (by decide) d5,
      listEncodedAt_of_get d.wf_dns_put _ (by decide) d6⟩⟩

/-- C17: for every check of each of the four variants, `PostParams` holds
`"paused"` and `"notifywhenbackup"` as `"true"` or `"false"` after the flag and
`"notifyagainevery"` as the decimal rendering of `NotifyAgainEvery`; a check with
`Paused = false` and `NotifyAgainEvery = 0` yields `paused = "false"` and
`notifyagainevery = "0"`. -/
theorem post_params_keeps_false_and_zero
    (h : HttpCheck) (p : PingCheck) (t : TCPCheck) (d : DNSCheck) :
    FlagsKept h.PostParams h.Paused h.NotifyWhenBackup h.NotifyAgainEvery ∧
    FlagsKept p.PostParams p.Paused p.NotifyWhenBackup p.NotifyAgainEvery ∧
    FlagsKept t.PostParams t.Paused t.NotifyWhenBackup t.NotifyAgainEvery ∧
    FlagsKept d.PostParams d.Paused d.NotifyWhenBackup d.NotifyAgainEvery ∧
    (sampleHttp.Paused = false ∧ sampleHttp.NotifyAgainEvery = 0 ∧
      sampleHttp.PostParams.get "paused" = some "false" ∧
      sampleHttp.PostParams.get "notifyagainevery" = some "0") := by
  obtain ⟨h1, h2, h3, _⟩ := h.get_http_fixed
  obtain ⟨p1, p2, p3, _⟩ := p.get_ping_fixed
  obtain ⟨t1, t2, t3, _⟩ := t.get_tcp_fixed
  obtain ⟨d1, d2, d3, _⟩ := d.get_dns_fixed
  exact ⟨flagsKept_of_get h.wf_http_put _ h1 h3 h2, flagsKept_of_get p.wf_ping_put _ p1 p3 p2,
    flagsKept_of_get t.wf_tcp_put _ t1 t3 t2, flagsKept_of_get d.wf_dns_put _ d1 d3 d2,
    rfl, rfl, by decide, by decide⟩

/-- C18: for every `TCPCheck`, `PutParams` and `PostParams` hold the key `"port"`
with the decimal rendering of `Port`, which is `"0"` when `Port` is 0. -/
theorem tcp_params_port (ck : TCPCheck) :
    ck.PutParams.get "port" = some (Itoa ck.Port) ∧
    ck.PostParams.get "port" = some (Itoa ck.Port) ∧
    (ck.Port = 0 →
      ck.PutParams.get "port" = some "0" ∧ ck.PostParams.get "port" = some "0") := by
  have h := ck.get_tcp_fixed.2.2.2.2.2.2.2
  have hp : ck.PostParams.get "port" = some (Itoa ck.Port) :=
    get_post_of_get ck.wf_tcp_put _ (by decide) (Itoa_ne_empty ck.Port) h
  refine ⟨h, hp, ?_⟩
  intro h0
  rw [h, hp, h0]
  exact ⟨rfl, rfl⟩

/-- C16: the update encoding `PutParams` of an HTTP, a TCP and a DNS check holds
the key `"tags"` with the check's `Tags`, but that of a Ping check holds no key
`"tags"`, whatever its `Tags`, and neither does its create encoding; the ping
check with `Tags = "a,b"` yields no `"tags"` entry. -/
theorem ping_put_params_lacks_tags
    (h : HttpCheck) (p : PingCheck) (t : TCPCheck) (d : DNSCheck) :
    h.PutParams.get "tags" = some h.Tags ∧
    t.PutParams.get "tags" = some t.Tags ∧
    d.PutParams.get "tags" = some d.Tags ∧
    p.PutParams.get "tags" = none ∧
    p.PostParams.get "tags" = none ∧
    (samplePing.Tags = "a,b" ∧ samplePing.PutParams.get "tags" = none ∧
      ¬ samplePing.PutParams.Contains "tags") := by
  have hp := p.get_ping_fixed.2.2.2.2.2.2
  refine ⟨h.get_http_fixed.2.2.2.2.2.2.1, t.get_tcp_fixed.2.2.2.2.2.2.1,
    d.get_dns_fixed.2.2.2.2.2.2, hp, ?_, rfl, by decide, by decide⟩
  have hpost : p.PostParams.get "tags" = p.PutParams.get "tags" :=
    get_post_of_nonempty p.wf_ping_put _ (by decide) (by rw [hp]; simp)
  rw [hpost, hp]

/-! ## The order of the validation rules -/

theorem failsAtFirstCommonRule_validCommonParameters (name hostname : String)
    (resolution : Int) :
    FailsAtFirstCommonRule (validCommonParameters name hostname resolution) name hostname
      resolution := by
  unfold FailsAtFirstCommonRule validCommonParameters
  refine ⟨?_, ?_, ?_⟩
  · intro hn
    rw [if_pos hn]
  · intro hn hh
    rw [if_neg hn, if_pos hh]
  · intro hn hh hr
    have hr' : resolution ≠ 0 ∧ resolution ≠ 1 ∧ resolution ≠ 5 ∧ resolution ≠ 15 ∧
        resolution ≠ 30 ∧ resolution ≠ 60 := by
      simp only [List.mem_cons, List.mem_singleton, List.not_mem_nil, or_false, not_or] at hr
      exact hr
    rw [if_neg hn, if_neg hh, if_pos hr']

/-- A validator that returns the failure of the shared sub-check fails at the
first violated shared rule. -/
theorem failsAtFirstCommonRule_of_bind {valid : Option String} {name hostname : String}
    {resolution : Int}
    (h : ∀ err, validCommonParameters name hostname resolution = some err → valid = some err) :
    FailsAtFirstCommonRule valid name hostname resolution := by
  obtain ⟨c1, c2, c3⟩ := failsAtFirstCommonRule_validCommonParameters name hostname resolution
  exact ⟨fun hn => h _ (c1 hn), fun hn hh => h _ (c2 hn hh),
    fun hn hh hr => h _ (c3 hn hh hr)⟩

/-- C19: every validator returns the failure of the first violated rule, in the
order `Name`, `Hostname`, `Resolution`, then the rules of the variant: the
content-match exclusion for HTTP, the port range for TCP, `ExpectedIP` before
`NameServer` for DNS. A check with empty `Name` and empty `Hostname` fails with
the `Name` message; a `DNSCheck` with valid common fields and both `ExpectedIP`
and `NameServer` empty fails with the `ExpectedIP` message. -/
theorem valid_returns_first_violated_rule
    (h : HttpCheck) (p : PingCheck) (t : TCPCheck) (d : DNSCheck) :
    (FailsAtFirstCommonRule h.Valid h.Name h.Hostname h.Resolution ∧
      FailsAtFirstCommonRule p.Valid p.Name p.Hostname p.Resolution ∧
      FailsAtFirstCommonRule t.Valid t.Name t.Hostname t.Resolution ∧
      FailsAtFirstCommonRule d.Valid d.Name d.Hostname d.Resolution) ∧
    (validCommonParameters h.Name h.Hostname h.Resolution = none →
      h.ShouldContain ≠ "" ∧ h.ShouldNotContain ≠ "" →
      h.Valid = some
        "`ShouldContain` and `ShouldNotContain` must not be declared at the same time") ∧
    (validCommonParameters t.Name t.Hostname t.Resolution = none →
      t.Port < 1 ∨ t.Port > 65535 →
      t.Valid = some "Invalid value for `Port`.  Must contain an integer >= 1 and <= 65535") ∧
    (validCommonParameters d.Name d.Hostname d.Resolution = none → d.ExpectedIP = "" →
      d.Valid = some "invalid value for `ExpectedIP`, must contain non-empty string") ∧
    (validCommonParameters d.Name d.Hostname d.Resolution = none → d.ExpectedIP ≠ "" →
      d.NameServer = "" →
      d.Valid = some "invalid value for `NameServer`, must contain non-empty string") ∧
    ("invalid value for `Name`, must contain non-empty string" ≠
        "invalid value for `Hostname`, must contain non-empty string" ∧
      "invalid value for `ExpectedIP`, must contain non-empty string" ≠
        "invalid value for `NameServer`, must contain non-empty string") ∧
    (samplePingUnnamed.Name = "" ∧ samplePingUnnamed.Hostname = "" ∧
      samplePingUnnamed.Valid =
        some "invalid value for `Name`, must contain non-empty string") ∧
    (validCommonParameters sampleDnsBare.Name sampleDnsBare.Hostname
        sampleDnsBare.Resolution = none ∧
      sampleDnsBare.ExpectedIP = "" ∧ sampleDnsBare.NameServer = "" ∧
      sampleDnsBare.Valid =
        some "invalid value for `ExpectedIP`, must contain non-empty string") := by
  refine ⟨⟨?_, ?_, ?_, ?_⟩, ?_, ?_, ?_, ?_, ⟨by decide, by decide⟩,
    ⟨rfl, rfl, by decide⟩, ⟨by decide, rfl, rfl, by decide⟩⟩
  · apply failsAtFirstCommonRule_of_bind
    intro err he
    simp [HttpCheck.Valid, he]
  · apply failsAtFirstCommonRule_of_bind
    intro err he
    simp [PingCheck.Valid, he]
  · apply failsAtFirstCommonRule_of_bind
    intro err he
    simp [TCPCheck.Valid, he]
  · apply failsAtFirstCommonRule_of_bind
    intro err he
    simp [DNSCheck.Valid, he]
  · intro hc hb
    simp [HttpCheck.Valid, hc, hb]
  · intro hc hb
    simp only [TCPCheck.Valid, hc]
    rw [if_pos hb]
  · intro hc he
    simp [DNSCheck.Valid, hc, he]
  · intro hc he hs
    simp [DNSCheck.Valid, hc, he, hs]

/-! ## Reading the integer-list encoding back -/

theorem splitCommas_of_no_comma (cs : List Char) (h : ',' ∉ cs) : splitCommas cs = [cs] := by
  induction cs with
  | nil => rfl
  | cons c cs ih =>
    have hc : c ≠ ',' := fun he => h (he ▸ List.mem_cons_self _ _)
    have hcs : ',' ∉ cs := fun hm => h (List.mem_cons_of_mem _ hm)
    simp only [splitCommas, if_neg hc, ih hcs]

theorem splitCommas_append_comma (cs rest : List Char) (h : ',' ∉ cs) :
    splitCommas (cs ++ ',' :: rest) = cs :: splitCommas rest := by
  induction cs with
  | nil => simp [splitCommas]
  | cons c cs ih =>
    have hc : c ≠ ',' := fun he => h (he ▸ List.mem_cons_self _ _)
    have hcs : ',' ∉ cs := fun hm => h (List.mem_cons_of_mem _ hm)
    have ih' := ih hcs
    show splitCommas (c :: (cs ++ ',' :: rest)) = (c :: cs) :: splitCommas rest
    simp only [splitCommas, if_neg hc, ih']

theorem splitCommas_encoding (rest : List Int) : ∀ x : Int,
    splitCommas ((Itoa x).data ++ (rest.map fun y => ',' :: (Itoa y).data).flatten) =
      (Itoa x).data :: rest.map fun y => (Itoa y).data := by
  induction rest with
  | nil =>
    intro x
    simp only [List.map_nil, List.flatten_nil, List.append_nil]
    exact splitCommas_of_no_comma _ (Itoa_no_comma x)
  | cons y rest ih =>
    intro x
    simp only [List.map_cons, List.flatten_cons, List.cons_append]
    rw [splitCommas_append_comma _ _ (Itoa_no_comma x), ih y]

theorem parseDigits_natRepr (n : Nat) : parseDigits (Nat.repr n).data = some n := by
  have hne : (Nat.repr n).data ≠ [] := toDigitsCore_ne_nil n n []
  have hall : (Nat.repr n).data.all Char.isDigit = true :=
    List.all_eq_true.mpr (fun c hc => natRepr_chars n c hc)
  have hval : digitsValue (Nat.repr n).data = n :=
    digitsValue_toDigitsCore (n + 1) n (Nat.lt_succ_self n)
  unfold parseDigits
  rw [if_pos ⟨hne, hall⟩, hval]

theorem parseDecimal_Itoa (x : Int) : parseDecimal (Itoa x).data = some x := by
  cases x with
  | ofNat n =>
    show parseDecimal (Nat.repr n).data = some (Int.ofNat n)
    have hp := parseDigits_natRepr n
    cases hd : (Nat.repr n).data with
    | nil => exact absurd hd (toDigitsCore_ne_nil n n [])
    | cons c ds =>
      have hc : c ≠ '-' := by
        intro he
        have hdig := natRepr_chars n c (by rw [hd]; exact List.mem_cons_self _ _)
        rw [he] at hdig
        exact absurd hdig (by decide)
      rw [hd] at hp
      simp only [parseDecimal, if_neg hc, hp, Option.map_some']
  | negSucc n =>
    have hd : (Itoa (Int.negSucc n)).data = '-' :: (Nat.repr (n + 1)).data := by
      simp only [Itoa, String.data_append]
      rfl
    rw [hd]
    simp only [parseDecimal, if_true, parseDigits_natRepr, Option.map_some']
    rfl

theorem parseDecimals_renderings (integers : List Int) :
    parseDecimals (integers.map fun y => (Itoa y).data) = some integers := by
  induction integers with
  | nil => rfl
  | cons x rest ih =>
    simp only [List.map_cons, parseDecimals, parseDecimal_Itoa, ih]

theorem parseCDString_intListToCDString (integers : List Int) :
    parseCDString (intListToCDString integers) = some integers := by
  cases integers with
  | nil => rfl
  | cons x rest =>
    have hne : intListToCDString (x :: rest) ≠ "" := fun h =>
      List.cons_ne_nil x rest ((intListToCDString_eq_empty_iff _).mp h)
    unfold parseCDString
    rw [if_neg hne, intListToCDString_data_cons, splitCommas_encoding]
    exact parseDecimals_renderings (x :: rest)

/-- C20: `intListToCDString` is injective on lists of integers, negative elements
and the empty list included: reading its output back recovers the input list,
which for a non-empty list is splitting the output on commas and parsing each
piece as a decimal integer, and only the empty list is encoded as the empty
string. -/
theorem int_list_to_cd_string_injective :
    Function.Injective intListToCDString ∧
    (∀ a b : List Int, intListToCDString a = intListToCDString b → a = b) ∧
    (∀ integers : List Int, parseCDString (intListToCDString integers) = some integers) ∧
    (∀ integers : List Int, integers ≠ [] →
      parseDecimals (splitCommas (intListToCDString integers).data) = some integers) ∧
    (∀ integers : List Int, intListToCDString integers = "" ↔ integers = []) ∧
    (intListToCDString [-12, 0, 3] = "-12,0,3" ∧
      parseCDString "-12,0,3" = some [-12, 0, 3]) := by
  have hinj : ∀ a b : List Int, intListToCDString a = intListToCDString b → a = b := by
    intro a b h
    have ha := parseCDString_intListToCDString a
    rw [h, parseCDString_intListToCDString b] at ha
    exact (Option.some.inj ha).symm
  refine ⟨fun a b h => hinj a b h, hinj, parseCDString_intListToCDString, ?_,
    intListToCDString_eq_empty_iff, by decide, by decide⟩
  intro integers hne
  have h := parseCDString_intListToCDString integers
  unfold parseCDString at h
  rwa [if_neg (fun he => hne ((intListToCDString_eq_empty_iff integers).mp he))] at h

end Pingdom
